import Mathlib

/-!
# gin-mcp: registry, handlers and watcher

A shallow embedding of `registry/registry.go`, `handlers/handler.go` and
`watcher/watcher.go`.

Go strings and byte slices are byte sequences; a byte is held as a natural
number below 256.  Library calls whose result depends on the machine the
program runs on (the Unicode case tables, the system MIME table, the plugin
loader, the file system) are fields of `Host`; the calls of the watcher are
fields of `WatchHost`, and the outcome of running a tool is a field of
`ExecHost`.  Log lines are not modelled.
-/

namespace GinMCP

/-! ## Go strings -/

/-- A Go `string` or `[]byte`: its bytes in order. -/
abbrev GoString := List Nat

/-- The constant `utf8.RuneError`, U+FFFD. -/
def RuneError : Nat := 0xFFFD

/-- The function `utf8.AppendRune`: the UTF-8 encoding of a rune; surrogates and
values above U+10FFFF are written as U+FFFD. -/
def encodeRune (r : Nat) : GoString :=
  if r ≤ 0x7F then [r]
  else if r ≤ 0x7FF then [0xC0 + r / 64, 0x80 + r % 64]
  else if 0x10FFFF < r ∨ (0xD800 ≤ r ∧ r ≤ 0xDFFF) then [0xEF, 0xBF, 0xBD]
  else if r ≤ 0xFFFF then [0xE0 + r / 4096, 0x80 + r / 64 % 64, 0x80 + r % 64]
  else [0xF0 + r / 262144, 0x80 + r / 4096 % 64, 0x80 + r / 64 % 64, 0x80 + r % 64]

/-- The bytes of a string literal of the source. -/
def str (s : String) : GoString := s.toList.flatMap (fun c => encodeRune c.toNat)

/-- The table `utf8.first` with `utf8.acceptRanges`: for a leading byte of a
multi-byte sequence, the sequence length and the bounds on the second byte. -/
def leadByte (b : Nat) : Option (Nat × Nat × Nat) :=
  if b < 0xC2 then none
  else if b ≤ 0xDF then some (2, 0x80, 0xBF)
  else if b = 0xE0 then some (3, 0xA0, 0xBF)
  else if b = 0xED then some (3, 0x80, 0x9F)
  else if b ≤ 0xEF then some (3, 0x80, 0xBF)
  else if b = 0xF0 then some (4, 0x90, 0xBF)
  else if b ≤ 0xF3 then some (4, 0x80, 0xBF)
  else if b = 0xF4 then some (4, 0x80, 0x8F)
  else none

/-- The function `utf8.DecodeRune`: the first rune of a byte sequence and its
width; an invalid or short sequence gives `(RuneError, 1)`. -/
def decodeRune : GoString → Nat × Nat
  | [] => (RuneError, 0)
  | s0 :: rest =>
    if s0 < 0x80 then (s0, 1)
    else
      match leadByte s0 with
      | none => (RuneError, 1)
      | some (sz, lo, hi) =>
        match rest with
        | [] => (RuneError, 1)
        | s1 :: rest1 =>
          if s1 < lo ∨ hi < s1 then (RuneError, 1)
          else if sz ≤ 2 then (s0 % 32 * 64 + s1 % 64, 2)
          else
            match rest1 with
            | [] => (RuneError, 1)
            | s2 :: rest2 =>
              if s2 < 0x80 ∨ 0xBF < s2 then (RuneError, 1)
              else if sz ≤ 3 then (s0 % 16 * 4096 + s1 % 64 * 64 + s2 % 64, 3)
              else
                match rest2 with
                | [] => (RuneError, 1)
                | s3 :: _ =>
                  if s3 < 0x80 ∨ 0xBF < s3 then (RuneError, 1)
                  else (s0 % 8 * 262144 + s1 % 64 * 4096 + s2 % 64 * 64 + s3 % 64, 4)

/-- The runes a `for i, c := range s` loop visits, each with the bytes it is read
from.  `skip` counts the bytes of the current rune still to be passed over. -/
def runeChunksFrom : Nat → GoString → List (Nat × GoString)
  | _, [] => []
  | skip + 1, _ :: rest => runeChunksFrom skip rest
  | 0, b :: rest =>
    ((decodeRune (b :: rest)).1, (b :: rest).take (decodeRune (b :: rest)).2) ::
      runeChunksFrom ((decodeRune (b :: rest)).2 - 1) rest

/-- The runes of a string with their bytes. -/
def runeChunks (s : GoString) : List (Nat × GoString) := runeChunksFrom 0 s

/-- The runes of a string in order. -/
def runes (s : GoString) : List Nat := (runeChunks s).map Prod.fst

/-- The function `unicode.ToLower`; `special` stands for the case tables,
consulted for runes above `unicode.MaxASCII` only. -/
def unicodeToLower (special : Nat → Nat) (r : Nat) : Nat :=
  if r ≤ 0x7F then (if 0x41 ≤ r ∧ r ≤ 0x5A then r + 32 else r) else special r

/-- The function `strings.Map` for a mapping that never drops a rune. -/
def stringsMap (mapping : Nat → Nat) (s : GoString) : GoString :=
  (runes s).flatMap (fun c => encodeRune (mapping c))

/-- The function `strings.ToLower`: byte-wise on an all-ASCII string, rune-wise
otherwise. -/
def stringsToLower (special : Nat → Nat) (s : GoString) : GoString :=
  if s.all (fun c => decide (c < 0x80)) then
    s.map (fun c => if 0x41 ≤ c ∧ c ≤ 0x5A then c + 32 else c)
  else stringsMap (unicodeToLower special) s

/-- The loop of `filepath.Ext`, walking the path from its last byte: `rev` holds
the bytes not yet visited (last first), `acc` the bytes already passed. -/
def extLoop : GoString → GoString → GoString
  | [], _ => []
  | c :: rev, acc =>
    if c = 0x2F then []
    else if c = 0x2E then c :: acc
    else extLoop rev (c :: acc)

/-- The function `filepath.Ext`: the suffix starting at the last dot of the last
path element, empty when that element has no dot.  The path separator is `/`. -/
def Ext (path : GoString) : GoString := extLoop path.reverse []

/-! ## JSON values built by the program -/

mutual
/-- A Go value made of strings, slices and `map[string]interface{}` maps, as the
program builds them for `json.Marshal`. -/
inductive JValue where
  | string (s : GoString)
  | array (items : JItems)
  | object (fields : JFields)
/-- The elements of a slice. -/
inductive JItems where
  | nil
  | cons (head : JValue) (tail : JItems)
/-- The entries of a map, in the order of the map literal. -/
inductive JFields where
  | nil
  | cons (key : GoString) (value : JValue) (tail : JFields)
end

/-! ## registry/registry.go -/

/-- The type `ResourceType`, with its four constants. -/
inductive ResourceType where
  | FileResource
  | DatabaseResource
  | APIRResource
  | UnknownResource
deriving DecidableEq, Repr

/-- The type `ToolType`, with its three constants. -/
inductive ToolType where
  | GoPluginTool
  | PythonTool
  | UnknownTool
deriving DecidableEq, Repr

/-- The string value of a `ToolType` constant. -/
def ToolType.value : ToolType → GoString
  | .GoPluginTool => str "go_plugin"
  | .PythonTool => str "python"
  | .UnknownTool => str "unknown"

/-- The string value of a `ResourceType` constant. -/
def ResourceType.value : ResourceType → GoString
  | .FileResource => str "file"
  | .DatabaseResource => str "database"
  | .APIRResource => str "api"
  | .UnknownResource => str "unknown"

/-- The struct `ResourceInfo`; `Type_` is the field `Type`. -/
structure ResourceInfo where
  Name : GoString
  FilePath : GoString
  Type_ : ResourceType
  MimeType : GoString
deriving DecidableEq, Repr

/-- A `plugin.Symbol`: a value exported by a loaded plugin.  `isExecuteFunc`
tells whether its dynamic type is `func([]byte) ([]byte, error)`. -/
structure Symbol where
  id : Nat
  isExecuteFunc : Bool
deriving DecidableEq, Repr

/-- A value stored in `ToolInfo.Handler`: the symbol `loadGoPlugin` returns or
the path `loadPythonScript` returns. -/
inductive HandlerValue where
  | symbol (s : Symbol)
  | path (filePath : GoString)
deriving DecidableEq, Repr

/-- The struct `ToolInfo`; `Type_` is the field `Type`, and a nil `Handler` is
`none`. -/
structure ToolInfo where
  Name : GoString
  Description : GoString
  FilePath : GoString
  Type_ : ToolType
  InputSchema : JValue
  Handler : Option HandlerValue

/-- A Go `error`, held as its message. -/
abbrev GoError := GoString

/-- A loaded `*plugin.Plugin`, given by its `Lookup` method. -/
structure Plugin where
  Lookup : GoString → Except GoError Symbol

/-- What the model leaves open: results of library calls that depend on the
machine the program runs on, and the wording of library errors. -/
structure Host where
  /-- The Unicode lower-case mapping of a rune above `unicode.MaxASCII`. -/
  lowerSpecial : Nat → Nat
  /-- The function `mime.TypeByExtension`. -/
  TypeByExtension : GoString → GoString
  /-- The function `plugin.Open`. -/
  pluginOpen : GoString → Except GoError Plugin
  /-- The function `ioutil.ReadFile`. -/
  ReadFile : GoString → Except GoError GoString
  /-- The message of the error `json.Unmarshal` returns on an input it rejects. -/
  jsonErrorText : GoString → GoString

/-- The struct `Registry`: the two maps (the mutex is not modelled). -/
structure Registry where
  resources : Finmap (fun _ : GoString => ResourceInfo)
  tools : Finmap (fun _ : GoString => ToolInfo)

/-- The function `NewRegistry`. -/
def NewRegistry : Registry := { resources := ∅, tools := ∅ }

/-- The expression `strings.ToLower(filepath.Ext(filePath))` the three
classifiers start with. -/
def lowerExt (h : Host) (filePath : GoString) : GoString :=
  stringsToLower h.lowerSpecial (Ext filePath)

/-- The method `Registry.determineResourceType`. -/
def determineResourceType (h : Host) (filePath : GoString) : ResourceType :=
  let ext := lowerExt h filePath
  if ext = str ".sql" then .DatabaseResource
  else if ext = str ".json" ∨ ext = str ".yaml" ∨ ext = str ".yml" ∨ ext = str ".xml" then
    .FileResource
  else if ext = str ".md" ∨ ext = str ".txt" ∨ ext = str ".csv" then .FileResource
  else .FileResource

/-- The method `Registry.determineToolType`. -/
def determineToolType (h : Host) (filePath : GoString) : ToolType :=
  let ext := lowerExt h filePath
  if ext = str ".so" then .GoPluginTool
  else if ext = str ".py" then .PythonTool
  else .UnknownTool

/-- The method `Registry.determineMimeType`. -/
def determineMimeType (h : Host) (filePath : GoString) : GoString :=
  let ext := lowerExt h filePath
  if ext = str ".json" then str "application/json"
  else if ext = str ".yaml" ∨ ext = str ".yml" then str "application/x-yaml"
  else if ext = str ".xml" then str "application/xml"
  else if ext = str ".md" then str "text/markdown"
  else if ext = str ".txt" then str "text/plain"
  else if ext = str ".csv" then str "text/csv"
  else if ext = str ".sql" then str "text/sql"
  else h.TypeByExtension ext

/-- The map every branch of `generateInputSchema` returns. -/
def inputSchemaTemplate : JValue :=
  .object (.cons (str "type") (.string (str "object"))
    (.cons (str "properties")
      (.object (.cons (str "arguments")
        (.object (.cons (str "type") (.string (str "object"))
          (.cons (str "description") (.string (str "Tool arguments")) .nil)))
        .nil))
      .nil))

/-- The method `Registry.generateInputSchema`. -/
def generateInputSchema : ToolType → JValue
  | .GoPluginTool => inputSchemaTemplate
  | .PythonTool => inputSchemaTemplate
  | .UnknownTool => inputSchemaTemplate

/-- The method `Registry.loadGoPlugin`. -/
def loadGoPlugin (h : Host) (filePath : GoString) : Except GoError HandlerValue :=
  match h.pluginOpen filePath with
  | .error err => .error (str "failed to open plugin " ++ filePath ++ str ": " ++ err)
  | .ok plug =>
    match plug.Lookup (str "Execute") with
    | .error err =>
      .error (str "failed to find Execute function in plugin " ++ filePath ++ str ": " ++ err)
    | .ok executeSymbol => .ok (.symbol executeSymbol)

/-- The method `Registry.loadPythonScript`. -/
def loadPythonScript (filePath : GoString) : Except GoError HandlerValue :=
  .ok (.path filePath)

/-- The method `Registry.loadToolHandler`. -/
def loadToolHandler (h : Host) (toolInfo : ToolInfo) : Except GoError HandlerValue :=
  match toolInfo.Type_ with
  | .GoPluginTool => loadGoPlugin h toolInfo.FilePath
  | .PythonTool => loadPythonScript toolInfo.FilePath
  | .UnknownTool => .error (str "unsupported tool type: " ++ toolInfo.Type_.value)

/-- The method `Registry.RegisterResource`: the registry after the call and the
error returned. -/
def RegisterResource (h : Host) (r : Registry) (name filePath : GoString) :
    Registry × Option GoError :=
  let resourceType := determineResourceType h filePath
  let mimeType := determineMimeType h filePath
  let resourceInfo : ResourceInfo :=
    { Name := name, FilePath := filePath, Type_ := resourceType, MimeType := mimeType }
  ({ r with resources := r.resources.insert name resourceInfo }, none)

/-- The method `Registry.RegisterTool`: the registry after the call and the
error returned. -/
def RegisterTool (h : Host) (r : Registry) (name filePath description : GoString) :
    Registry × Option GoError :=
  let toolType := determineToolType h filePath
  let toolInfo : ToolInfo :=
    { Name := name, Description := description, FilePath := filePath, Type_ := toolType,
      InputSchema := generateInputSchema toolType, Handler := none }
  match loadToolHandler h toolInfo with
  | .error err => (r, some (str "failed to load handler for tool " ++ name ++ str ": " ++ err))
  | .ok handler =>
    ({ r with tools := r.tools.insert name { toolInfo with Handler := some handler } }, none)

/-- The method `Registry.UnregisterResource`. -/
def UnregisterResource (r : Registry) (name : GoString) : Registry :=
  if (r.resources.lookup name).isSome then { r with resources := r.resources.erase name }
  else r

/-- The method `Registry.UnregisterTool`. -/
def UnregisterTool (r : Registry) (name : GoString) : Registry :=
  if (r.tools.lookup name).isSome then { r with tools := r.tools.erase name }
  else r

/-- The method `Registry.GetResource`; `none` is the `false` flag. -/
def GetResource (r : Registry) (name : GoString) : Option ResourceInfo :=
  r.resources.lookup name

/-- The method `Registry.GetTool`; `none` is the `false` flag. -/
def GetTool (r : Registry) (name : GoString) : Option ToolInfo :=
  r.tools.lookup name

/-- The method `Registry.GetResourceCount`. -/
def GetResourceCount (r : Registry) : Nat := r.resources.keys.card

/-- The method `Registry.GetToolCount`. -/
def GetToolCount (r : Registry) : Nat := r.tools.keys.card

/-! ## Trimming -/

/-- The function `utf8.RuneStart`. -/
def RuneStart (b : Nat) : Bool := decide (b < 0x80 ∨ 0xC0 ≤ b)

/-- The search of `utf8.DecodeLastRune` for the place to decode from, given the
bytes before the last one, nearest first: the number of bytes from that place to
the end of the string. -/
def lastRuneSpan : GoString → Nat
  | [] => 1
  | b1 :: rest1 =>
    if RuneStart b1 then 2
    else
      match rest1 with
      | [] => 2
      | b2 :: rest2 =>
        if RuneStart b2 then 3
        else
          match rest2 with
          | [] => 3
          | b3 :: rest3 =>
            if RuneStart b3 then 4
            else
              match rest3 with
              | [] => 4
              | _ :: _ => 5

/-- The function `utf8.DecodeLastRune`, on the string given last byte first. -/
def decodeLastRuneRev : GoString → Nat × Nat
  | [] => (RuneError, 0)
  | last :: before =>
    if last < 0x80 then (last, 1)
    else
      let span := lastRuneSpan before
      let d := decodeRune ((last :: before).take span).reverse
      if d.2 ≠ span then (RuneError, 1) else d

/-- The function `unicode.IsSpace`. -/
def IsSpace (r : Nat) : Bool :=
  if r ≤ 0xFF then
    decide (r = 0x09 ∨ r = 0x0A ∨ r = 0x0B ∨ r = 0x0C ∨ r = 0x0D ∨ r = 0x20 ∨ r = 0x85 ∨
      r = 0xA0)
  else
    decide (r = 0x1680 ∨ (0x2000 ≤ r ∧ r ≤ 0x200A) ∨ r = 0x2028 ∨ r = 0x2029 ∨ r = 0x202F ∨
      r = 0x205F ∨ r = 0x3000)

/-- The table `asciiSpace` of package `strings`. -/
def asciiSpace (c : Nat) : Bool :=
  decide (c = 0x09 ∨ c = 0x0A ∨ c = 0x0B ∨ c = 0x0C ∨ c = 0x0D ∨ c = 0x20)

/-- The function `strings.TrimLeftFunc`: the string from its first rune on which
`f` is false, over the runes still to visit. -/
def trimLeftChunks (f : Nat → Bool) : List (Nat × GoString) → GoString
  | [] => []
  | (r, raw) :: rest =>
    if f r then trimLeftChunks f rest else raw ++ (rest.map Prod.snd).flatten

/-- The function `strings.TrimLeftFunc`. -/
def TrimLeftFunc (s : GoString) (f : Nat → Bool) : GoString := trimLeftChunks f (runeChunks s)

/-- The loop of `strings.lastIndexFunc` with `truth = false`, on the string given
last byte first: the index at which the last rune with `f` false starts. -/
def lastIndexFuncRev (f : Nat → Bool) : Nat → GoString → Option Nat
  | _, [] => none
  | skip + 1, _ :: rest => lastIndexFuncRev f skip rest
  | 0, b :: rest =>
    if f (decodeLastRuneRev (b :: rest)).1 = false then
      some ((b :: rest).length - (decodeLastRuneRev (b :: rest)).2)
    else lastIndexFuncRev f ((decodeLastRuneRev (b :: rest)).2 - 1) rest

/-- The function `strings.TrimRightFunc`. -/
def TrimRightFunc (s : GoString) (f : Nat → Bool) : GoString :=
  match lastIndexFuncRev f 0 s.reverse with
  | some i =>
    if 0x80 ≤ s.getD i 0 then s.take (i + (decodeRune (s.drop i)).2) else s.take (i + 1)
  | none => []

/-- The function `strings.TrimFunc`. -/
def TrimFunc (s : GoString) (f : Nat → Bool) : GoString := TrimRightFunc (TrimLeftFunc s f) f

/-- The second loop of `strings.TrimSpace`, on `s[start:]` given last byte
first. -/
def trimSpaceStop : GoString → GoString
  | [] => []
  | c :: rest =>
    if 0x80 ≤ c then TrimRightFunc (c :: rest).reverse IsSpace
    else if asciiSpace c then trimSpaceStop rest
    else (c :: rest).reverse

/-- The function `strings.TrimSpace`, starting with its first loop. -/
def TrimSpace : GoString → GoString
  | [] => []
  | c :: rest =>
    if 0x80 ≤ c then TrimFunc (c :: rest) IsSpace
    else if asciiSpace c then TrimSpace rest
    else trimSpaceStop (c :: rest).reverse

/-! ## encoding/json: the scanner -/

/-- The step functions of `scanner` (`stateBeginValue`, `stateInString`, ...). -/
inductive ScanStep where
  | BeginValueOrEmpty | BeginValue | BeginStringOrEmpty | BeginString | EndValue | EndTop
  | InString | InStringEsc | InStringEscU | InStringEscU1 | InStringEscU12 | InStringEscU123
  | Neg | S1 | S0 | Dot | Dot0 | E | ESign | E0
  | T | Tr | Tru | F | Fa | Fal | Fals | N | Nu | Nul
  | Error
deriving DecidableEq, Repr

/-- The constants `parseObjectKey`, `parseObjectValue`, `parseArrayValue`. -/
inductive ParseState where
  | ObjectKey | ObjectValue | ArrayValue
deriving DecidableEq, Repr

/-- The struct `scanner`: the current step function, the stack `parseState`
(innermost first), whether `err` is set, and `endTop`. -/
structure Scanner where
  step : ScanStep
  parseState : List ParseState
  err : Bool
  endTop : Bool
deriving DecidableEq, Repr

/-- The constant `maxNestingDepth`. -/
def maxNestingDepth : Nat := 10000

/-- The scanner after `scanner.reset`. -/
def Scanner.reset : Scanner :=
  { step := .BeginValue, parseState := [], err := false, endTop := false }

/-- The method `scanner.error`. -/
def Scanner.error (s : Scanner) : Scanner := { s with step := .Error, err := true }

/-- The method `scanner.pushParseState`, with the step function set before it. -/
def Scanner.pushParseState (s : Scanner) (newParseState : ParseState) (next : ScanStep) :
    Scanner :=
  if s.parseState.length + 1 ≤ maxNestingDepth then
    { s with step := next, parseState := newParseState :: s.parseState }
  else Scanner.error { s with step := next, parseState := newParseState :: s.parseState }

/-- The method `scanner.popParseState`. -/
def Scanner.popParseState (s : Scanner) : Scanner :=
  match s.parseState.tail with
  | [] => { s with parseState := [], step := .EndTop, endTop := true }
  | p :: ps => { s with parseState := p :: ps, step := .EndValue }

/-- The function `isSpace` of the scanner. -/
def isSpace (c : Nat) : Bool := decide (c = 0x20 ∨ c = 0x09 ∨ c = 0x0D ∨ c = 0x0A)

/-- The test for a hexadecimal digit in `stateInStringEscU` and its successors. -/
def isHexDigit (c : Nat) : Bool :=
  decide ((0x30 ≤ c ∧ c ≤ 0x39) ∨ (0x61 ≤ c ∧ c ≤ 0x66) ∨ (0x41 ≤ c ∧ c ≤ 0x46))

/-- The test `'0' <= c && c <= '9'`. -/
def isDigit (c : Nat) : Bool := decide (0x30 ≤ c ∧ c ≤ 0x39)

/-- The function `stateEndTop`. -/
def stateEndTop (s : Scanner) (c : Nat) : Scanner :=
  if isSpace c then s else s.error

/-- The function `stateEndValue`. -/
def stateEndValue (s : Scanner) (c : Nat) : Scanner :=
  match s.parseState with
  | [] => stateEndTop { s with step := .EndTop, endTop := true } c
  | ps :: below =>
    if isSpace c then { s with step := .EndValue }
    else
      match ps with
      | .ObjectKey =>
        if c = 0x3A then { s with parseState := .ObjectValue :: below, step := .BeginValue }
        else s.error
      | .ObjectValue =>
        if c = 0x2C then { s with parseState := .ObjectKey :: below, step := .BeginString }
        else if c = 0x7D then s.popParseState
        else s.error
      | .ArrayValue =>
        if c = 0x2C then { s with step := .BeginValue }
        else if c = 0x5D then s.popParseState
        else s.error

/-- The function `stateBeginValue`. -/
def stateBeginValue (s : Scanner) (c : Nat) : Scanner :=
  if isSpace c then s
  else if c = 0x7B then s.pushParseState .ObjectKey .BeginStringOrEmpty
  else if c = 0x5B then s.pushParseState .ArrayValue .BeginValueOrEmpty
  else if c = 0x22 then { s with step := .InString }
  else if c = 0x2D then { s with step := .Neg }
  else if c = 0x30 then { s with step := .S0 }
  else if c = 0x74 then { s with step := .T }
  else if c = 0x66 then { s with step := .F }
  else if c = 0x6E then { s with step := .N }
  else if 0x31 ≤ c ∧ c ≤ 0x39 then { s with step := .S1 }
  else s.error

/-- The function `stateBeginValueOrEmpty`. -/
def stateBeginValueOrEmpty (s : Scanner) (c : Nat) : Scanner :=
  if isSpace c then s
  else if c = 0x5D then stateEndValue s c
  else stateBeginValue s c

/-- The function `stateBeginString`. -/
def stateBeginString (s : Scanner) (c : Nat) : Scanner :=
  if isSpace c then s
  else if c = 0x22 then { s with step := .InString }
  else s.error

/-- The function `stateBeginStringOrEmpty`. -/
def stateBeginStringOrEmpty (s : Scanner) (c : Nat) : Scanner :=
  if isSpace c then s
  else if c = 0x7D then
    stateEndValue { s with parseState := .ObjectValue :: s.parseState.tail } c
  else stateBeginString s c

/-- The function `stateInString`. -/
def stateInString (s : Scanner) (c : Nat) : Scanner :=
  if c = 0x22 then { s with step := .EndValue }
  else if c = 0x5C then { s with step := .InStringEsc }
  else if c < 0x20 then s.error
  else s

/-- The function `stateInStringEsc`. -/
def stateInStringEsc (s : Scanner) (c : Nat) : Scanner :=
  if c = 0x62 ∨ c = 0x66 ∨ c = 0x6E ∨ c = 0x72 ∨ c = 0x74 ∨ c = 0x5C ∨ c = 0x2F ∨ c = 0x22 then
    { s with step := .InString }
  else if c = 0x75 then { s with step := .InStringEscU }
  else s.error

/-- The functions `stateInStringEscU`, `stateInStringEscU1`, `stateInStringEscU12`
and `stateInStringEscU123`, which differ in the step that follows. -/
def stateInStringEscHex (next : ScanStep) (s : Scanner) (c : Nat) : Scanner :=
  if isHexDigit c then { s with step := next } else s.error

/-- The function `state0`. -/
def state0 (s : Scanner) (c : Nat) : Scanner :=
  if c = 0x2E then { s with step := .Dot }
  else if c = 0x65 ∨ c = 0x45 then { s with step := .E }
  else stateEndValue s c

/-- The function `state1`. -/
def state1 (s : Scanner) (c : Nat) : Scanner :=
  if isDigit c then { s with step := .S1 } else state0 s c

/-- The function `stateNeg`. -/
def stateNeg (s : Scanner) (c : Nat) : Scanner :=
  if c = 0x30 then { s with step := .S0 }
  else if 0x31 ≤ c ∧ c ≤ 0x39 then { s with step := .S1 }
  else s.error

/-- The function `stateDot`. -/
def stateDot (s : Scanner) (c : Nat) : Scanner :=
  if isDigit c then { s with step := .Dot0 } else s.error

/-- The function `stateDot0`. -/
def stateDot0 (s : Scanner) (c : Nat) : Scanner :=
  if isDigit c then s
  else if c = 0x65 ∨ c = 0x45 then { s with step := .E }
  else stateEndValue s c

/-- The function `stateESign`. -/
def stateESign (s : Scanner) (c : Nat) : Scanner :=
  if isDigit c then { s with step := .E0 } else s.error

/-- The function `stateE`. -/
def stateE (s : Scanner) (c : Nat) : Scanner :=
  if c = 0x2B ∨ c = 0x2D then { s with step := .ESign } else stateESign s c

/-- The function `stateE0`. -/
def stateE0 (s : Scanner) (c : Nat) : Scanner :=
  if isDigit c then s else stateEndValue s c

/-- The functions `stateT`, `stateTr`, ..., `stateNul`: the next byte of `true`,
`false` or `null` is `want`. -/
def stateLiteral (want : Nat) (next : ScanStep) (s : Scanner) (c : Nat) : Scanner :=
  if c = want then { s with step := next } else s.error

/-- The call `s.step(s, c)`. -/
def Scanner.scan (s : Scanner) (c : Nat) : Scanner :=
  match s.step with
  | .BeginValueOrEmpty => stateBeginValueOrEmpty s c
  | .BeginValue => stateBeginValue s c
  | .BeginStringOrEmpty => stateBeginStringOrEmpty s c
  | .BeginString => stateBeginString s c
  | .EndValue => stateEndValue s c
  | .EndTop => stateEndTop s c
  | .InString => stateInString s c
  | .InStringEsc => stateInStringEsc s c
  | .InStringEscU => stateInStringEscHex .InStringEscU1 s c
  | .InStringEscU1 => stateInStringEscHex .InStringEscU12 s c
  | .InStringEscU12 => stateInStringEscHex .InStringEscU123 s c
  | .InStringEscU123 => stateInStringEscHex .InString s c
  | .Neg => stateNeg s c
  | .S1 => state1 s c
  | .S0 => state0 s c
  | .Dot => stateDot s c
  | .Dot0 => stateDot0 s c
  | .E => stateE s c
  | .ESign => stateESign s c
  | .E0 => stateE0 s c
  | .T => stateLiteral 0x72 .Tr s c
  | .Tr => stateLiteral 0x75 .Tru s c
  | .Tru => stateLiteral 0x65 .EndValue s c
  | .F => stateLiteral 0x61 .Fa s c
  | .Fa => stateLiteral 0x6C .Fal s c
  | .Fal => stateLiteral 0x73 .Fals s c
  | .Fals => stateLiteral 0x65 .EndValue s c
  | .N => stateLiteral 0x75 .Nu s c
  | .Nu => stateLiteral 0x6C .Nul s c
  | .Nul => stateLiteral 0x6C .EndValue s c
  | .Error => s

/-- The method `scanner.eof`: `true` for `scanEnd`, `false` for `scanError`. -/
def Scanner.eof (s : Scanner) : Bool :=
  if s.err then false
  else if s.endTop then true
  else (s.scan 0x20).endTop

/-- The function `checkValid`: `true` when it returns no error. -/
def checkValid (data : GoString) : Bool :=
  (data.foldl Scanner.scan Scanner.reset).eof

/-! ## encoding/json: decoding into an empty interface -/

/-- The digits and exponent read from a number literal. -/
structure NumberParts where
  mantissa : Nat
  fracDigits : Nat
  inFrac : Bool
  inExp : Bool
  expNeg : Bool
  exponent : Nat
deriving DecidableEq, Repr

/-- Reading one byte of a number literal. -/
def NumberParts.read (a : NumberParts) (c : Nat) : NumberParts :=
  if c = 0x2E then { a with inFrac := true }
  else if c = 0x65 ∨ c = 0x45 then { a with inExp := true }
  else if c = 0x2D then (if a.inExp then { a with expNeg := true } else a)
  else if c = 0x2B then a
  else if a.inExp then { a with exponent := a.exponent * 10 + (c - 0x30) }
  else
    { a with
      mantissa := a.mantissa * 10 + (c - 0x30)
      fracDigits := if a.inFrac then a.fracDigits + 1 else a.fracDigits }

/-- The least magnitude that rounds to infinity in binary64: `2^1024 - 2^970`. -/
def float64Overflow : Nat := 2 ^ 1024 - 2 ^ 970

/-- Whether `strconv.ParseFloat(s, 64)` returns no error on a JSON number
literal, that is whether its magnitude rounds to a finite binary64 value. -/
def parseFloatOk (literal : GoString) : Bool :=
  let a := literal.foldl NumberParts.read
    { mantissa := 0, fracDigits := 0, inFrac := false, inExp := false, expNeg := false,
      exponent := 0 }
  if a.expNeg then decide (a.mantissa < float64Overflow * 10 ^ (a.exponent + a.fracDigits))
  else if a.fracDigits ≤ a.exponent then
    decide (a.mantissa * 10 ^ (a.exponent - a.fracDigits) < float64Overflow)
  else decide (a.mantissa < float64Overflow * 10 ^ (a.fracDigits - a.exponent))

/-- Whether the scanner is inside a number literal. -/
def ScanStep.inNumber : ScanStep → Bool
  | .Neg | .S1 | .S0 | .Dot | .Dot0 | .E | .ESign | .E0 => true
  | _ => false

/-- The part of `decodeState` that matters when the target is an empty
interface: the scanner, the bytes of the number literal being read, and whether
`convertNumber` has saved an error. -/
structure DecodeState where
  scan : Scanner
  literal : GoString
  savedError : Bool
deriving DecidableEq, Repr

/-- The decoder at the start of the input. -/
def DecodeState.init : DecodeState :=
  { scan := Scanner.reset, literal := [], savedError := false }

/-- Reading one byte: the scanner moves on; a number literal that ends here is
handed to `convertNumber`. -/
def DecodeState.read (d : DecodeState) (c : Nat) : DecodeState :=
  if (d.scan.scan c).step.inNumber then
    { scan := d.scan.scan c, literal := d.literal ++ [c], savedError := d.savedError }
  else
    { scan := d.scan.scan c, literal := [],
      savedError := d.savedError || (d.scan.step.inNumber && !parseFloatOk d.literal) }

/-- Whether `json.Unmarshal(data, &v)` with `v` an empty interface returns no
error: `checkValid` accepts the input and every number literal converts. -/
def jsonUnmarshalOk (data : GoString) : Bool :=
  (data.foldl DecodeState.read DecodeState.init).scan.eof &&
    !((data.foldl DecodeState.read DecodeState.init).read 0x20).savedError

/-! ## encoding/json: encoding -/

/-- The table `hex`. -/
def hexDigit (n : Nat) : Nat := if n < 10 then 0x30 + n else 0x61 + (n - 10)

/-- The table `htmlSafeSet`, for a byte below `utf8.RuneSelf`. -/
def htmlSafe (b : Nat) : Bool :=
  decide (0x20 ≤ b ∧ b ≠ 0x22 ∧ b ≠ 0x5C ∧ b ≠ 0x3C ∧ b ≠ 0x3E ∧ b ≠ 0x26)

/-- The escape `appendString` writes for a byte below `utf8.RuneSelf` that is not
in `htmlSafeSet` (Go 1.22 and later, which write `\b` and `\f` in short form). -/
def escapeByte (b : Nat) : GoString :=
  if b = 0x5C ∨ b = 0x22 then [0x5C, b]
  else if b = 0x08 then [0x5C, 0x62]
  else if b = 0x0C then [0x5C, 0x66]
  else if b = 0x0A then [0x5C, 0x6E]
  else if b = 0x0D then [0x5C, 0x72]
  else if b = 0x09 then [0x5C, 0x74]
  else [0x5C, 0x75, 0x30, 0x30, hexDigit (b / 16), hexDigit (b % 16)]

/-- What `appendString` (with `escapeHTML` set) writes for one rune of the
source string. -/
def appendChunk : Nat × GoString → GoString
  | (c, raw) =>
    match raw with
    | [] => []
    | b :: _ =>
      if b < 0x80 then (if htmlSafe b then [b] else escapeByte b)
      else if c = RuneError ∧ raw.length = 1 then str "\\ufffd"
      else if c = 0x2028 ∨ c = 0x2029 then str "\\u202" ++ [hexDigit (c % 16)]
      else raw

/-- The function `appendString` of `encoding/json` with `escapeHTML` set, as
`json.Marshal` calls it: the quoted string. -/
def appendString (src : GoString) : GoString :=
  [0x22] ++ (runeChunks src).flatMap appendChunk ++ [0x22]

/-- The order in which the encoder writes map keys. -/
def keyLess : GoString → GoString → Bool
  | [], [] => false
  | [], _ :: _ => true
  | _ :: _, [] => false
  | a :: as, b :: bs => if a < b then true else if b < a then false else keyLess as bs

/-- Placing a map entry among entries already in key order. -/
def JFields.insertSorted (k : GoString) (v : JValue) : JFields → JFields
  | .nil => .cons k v .nil
  | .cons k2 v2 t =>
    if keyLess k2 k then .cons k2 v2 (JFields.insertSorted k v t)
    else .cons k v (.cons k2 v2 t)

mutual
/-- The value with the entries of every map in key order. -/
def JValue.sortKeys : JValue → JValue
  | .string s => .string s
  | .array items => .array items.sortKeys
  | .object fields => .object fields.sortKeys
/-- The elements with the entries of every map in key order. -/
def JItems.sortKeys : JItems → JItems
  | .nil => .nil
  | .cons v t => .cons v.sortKeys t.sortKeys
/-- The entries in key order, with the entries of every map inside in key
order. -/
def JFields.sortKeys : JFields → JFields
  | .nil => .nil
  | .cons k v t => JFields.insertSorted k v.sortKeys t.sortKeys
end

mutual
/-- The encoding of a value whose maps are in key order. -/
def JValue.encode : JValue → GoString
  | .string s => appendString s
  | .array .nil => [0x5B, 0x5D]
  | .array (.cons v t) => [0x5B] ++ v.encode ++ t.encodeRest ++ [0x5D]
  | .object .nil => [0x7B, 0x7D]
  | .object (.cons k v t) =>
    [0x7B] ++ appendString k ++ [0x3A] ++ v.encode ++ t.encodeRest ++ [0x7D]
/-- The encoding of the elements after the first. -/
def JItems.encodeRest : JItems → GoString
  | .nil => []
  | .cons v t => [0x2C] ++ v.encode ++ t.encodeRest
/-- The encoding of the entries after the first. -/
def JFields.encodeRest : JFields → GoString
  | .nil => []
  | .cons k v t => [0x2C] ++ appendString k ++ [0x3A] ++ v.encode ++ t.encodeRest
end

/-- The function `json.Marshal` on a value made of strings, slices and maps; it
returns no error on such a value. -/
def jsonMarshal (v : JValue) : GoString := v.sortKeys.encode

/-- The value of a map entry, by key. -/
def JFields.lookup (key : GoString) : JFields → Option JValue
  | .nil => none
  | .cons k v t => if k = key then some v else JFields.lookup key t

/-! ## handlers/handler.go -/

/-- The call `json.Unmarshal(data, &jsonData)` with `jsonData` an empty
interface: the error returned. -/
def jsonUnmarshal (h : Host) (data : GoString) : Option GoError :=
  if jsonUnmarshalOk data then none else some (h.jsonErrorText data)

/-- The method `MCPHandler.ValidateInput`: the error returned. -/
def ValidateInput (h : Host) (input : GoString) : Option GoError :=
  if input.length = 0 then some (str "input cannot be empty")
  else
    match jsonUnmarshal h input with
    | some err => some (str "invalid JSON input: " ++ err)
    | none => none

/-- The method `MCPHandler.ValidateOutput`: the error returned. -/
def ValidateOutput (h : Host) (output : GoString) : Option GoError :=
  if output.length = 0 then some (str "output cannot be empty")
  else
    match jsonUnmarshal h output with
    | some err => some (str "invalid JSON output: " ++ err)
    | none => none

/-- The map `response` of `validateAndFormatOutput` for a given text. -/
def toolResponse (text : GoString) : JValue :=
  .object (.cons (str "content")
    (.array (.cons
      (.object (.cons (str "type") (.string (str "text"))
        (.cons (str "text") (.string text) .nil)))
      .nil))
    .nil)

/-- The method `MCPHandler.validateAndFormatOutput`. -/
def validateAndFormatOutput (h : Host) (output : GoString) : Except GoError GoString :=
  match ValidateOutput h output with
  | none => .ok output
  | some _ => .ok (jsonMarshal (toolResponse (TrimSpace output)))

/-- The entry of `contents` in the map `response` of `AccessResource`. -/
def resourceEntry (resourceInfo : ResourceInfo) (content : GoString) : JFields :=
  .cons (str "uri") (.string (str "file://" ++ resourceInfo.FilePath))
    (.cons (str "mime_type") (.string resourceInfo.MimeType)
      (.cons (str "text") (.string content) .nil))

/-- The map `response` of `AccessResource`. -/
def resourceResponse (resourceInfo : ResourceInfo) (content : GoString) : JValue :=
  .object (.cons (str "contents")
    (.array (.cons (.object (resourceEntry resourceInfo content)) .nil))
    .nil)

/-- The method `MCPHandler.AccessResource`. -/
def AccessResource (h : Host) (resourceInfo : ResourceInfo) (input : GoString) :
    Except GoError GoString :=
  match ValidateInput h input with
  | some err => .error (str "invalid input: " ++ err)
  | none =>
    match h.ReadFile resourceInfo.FilePath with
    | .error err => .error (str "failed to read resource file: " ++ err)
    | .ok content => .ok (jsonMarshal (resourceResponse resourceInfo content))

/-! ## Sample machine and registry states -/

/-- A machine with no plugins, no files, an empty MIME table and identity case
tables. -/
def sampleHost : Host :=
  { lowerSpecial := fun r => r
    TypeByExtension := fun _ => []
    pluginOpen := fun filePath => .error (str "plugin.Open(\"" ++ filePath ++ str "\"): not found")
    ReadFile := fun filePath => .error (str "open " ++ filePath ++ str ": no such file")
    jsonErrorText := fun _ => str "invalid JSON" }

/-- The machine `sampleHost` with one file, `resources/notes.md`. -/
def notesHost : Host :=
  { sampleHost with
    ReadFile := fun filePath =>
      if filePath = str "resources/notes.md" then .ok (str "# Notes\n")
      else .error (str "open " ++ filePath ++ str ": no such file") }

/-- A registry holding the script tool `calc` and the resource `notes`. -/
def sampleRegistry : Registry :=
  (RegisterResource sampleHost
    (RegisterTool sampleHost NewRegistry (str "calc") (str "tools/calc.py") (str "MCP tool: calc")).1
    (str "notes") (str "resources/notes.md")).1

/-- The descriptor `RegisterResource` builds for `resources/notes.md`. -/
def notesInfo : ResourceInfo :=
  { Name := str "notes", FilePath := str "resources/notes.md", Type_ := .FileResource,
    MimeType := str "text/markdown" }

/-! ## The resource envelope in the words of the specification -/

/-- The entry of `contents` as section 4.5 of the specification writes it,
`{ uri: "file://<path>", mimeType, text: <content> }`, with the key `mimeType`. -/
def specResourceEntry (resourceInfo : ResourceInfo) (content : GoString) : JFields :=
  .cons (str "uri") (.string (str "file://" ++ resourceInfo.FilePath))
    (.cons (str "mimeType") (.string resourceInfo.MimeType)
      (.cons (str "text") (.string content) .nil))

/-- The envelope `{ contents: [ entry ] }` with the entry of the
specification. -/
def specResourceResponse (resourceInfo : ResourceInfo) (content : GoString) : JValue :=
  .object (.cons (str "contents")
    (.array (.cons (.object (specResourceEntry resourceInfo content)) .nil))
    .nil)

/-! ## Paths and prefixes -/

/-- The function `strings.HasPrefix`. -/
def HasPrefix (s prefix_ : GoString) : Bool := prefix_.isPrefixOf s

/-- The function `strings.HasSuffix`. -/
def HasSuffix (s suffix : GoString) : Bool := suffix.reverse.isPrefixOf s.reverse

/-- The function `strings.TrimSuffix`. -/
def TrimSuffix (s suffix : GoString) : GoString :=
  if HasSuffix s suffix then s.take (s.length - suffix.length) else s

/-- The function `filepath.Base`: the last element of the path, after trailing
separators are removed; `.` for the empty path and `/` for a path of
separators only. -/
def Base (path : GoString) : GoString :=
  if path = [] then str "."
  else
    let last := ((path.reverse.dropWhile (fun c => decide (c = 0x2F))).takeWhile
      (fun c => decide (c ≠ 0x2F))).reverse
    if last = [] then str "/" else last

/-- The elements of a path between separators; `cur` holds the bytes of the
current element, last first. -/
def splitOnSlash : GoString → GoString → List GoString
  | [], cur => [cur.reverse]
  | c :: rest, cur =>
    if c = 0x2F then cur.reverse :: splitOnSlash rest [] else splitOnSlash rest (c :: cur)

/-- One element read by the loop of `filepath.Clean`; `out` holds the elements
written so far, last first. -/
def cleanStep (rooted : Bool) (out : List GoString) (el : GoString) : List GoString :=
  if el = [] ∨ el = str "." then out
  else if el = str ".." then
    match out with
    | [] => if rooted then [] else [el]
    | top :: below => if top = str ".." then el :: out else below
  else el :: out

/-- The function `filepath.Clean`. -/
def Clean (path : GoString) : GoString :=
  let rooted := path.head? = some 0x2F
  let out := ((splitOnSlash path []).foldl (cleanStep rooted) []).reverse
  if rooted then 0x2F :: (out.intersperse [0x2F]).flatten
  else if out = [] then str "."
  else (out.intersperse [0x2F]).flatten

/-- The call `filepath.Join(dir, name)`. -/
def Join (dir name : GoString) : GoString :=
  if dir ≠ [] then Clean (dir ++ [0x2F] ++ name)
  else if name ≠ [] then Clean name
  else []

/-! ## watcher/watcher.go -/

/-- An `os.DirEntry`: the name of the entry and whether it is a directory. -/
structure DirEntry where
  Name : GoString
  IsDir : Bool
deriving DecidableEq, Repr

/-- The results of the file system and `fsnotify` calls the watcher makes. -/
structure WatchHost where
  /-- The error of `fsnotify.NewWatcher`. -/
  NewWatcher : Option GoError
  /-- The error of `os.MkdirAll` on a directory. -/
  MkdirAll : GoString → Option GoError
  /-- The error of `fsnotify.Watcher.Add` on a directory. -/
  Add : GoString → Option GoError
  /-- The function `os.ReadDir`. -/
  ReadDir : GoString → Except GoError (List DirEntry)
  /-- The error of `fsnotify.Watcher.Close`. -/
  Close : Option GoError

/-- The type `fsnotify.Op`, a bit mask. -/
abbrev Op := Nat

/-- The constant `fsnotify.Create`. -/
def Op.Create : Op := 1

/-- The constant `fsnotify.Write`. -/
def Op.Write : Op := 2

/-- The constant `fsnotify.Remove`. -/
def Op.Remove : Op := 4

/-- The constant `fsnotify.Rename`. -/
def Op.Rename : Op := 8

/-- The constant `fsnotify.Chmod`. -/
def Op.Chmod : Op := 16

/-- The struct `fsnotify.Event`. -/
structure Event where
  Name : GoString
  Op : Op
deriving DecidableEq, Repr

/-- The struct `Watcher`: the registry it points to, the two directories and the
flag `isRunning`.  `loops` counts the goroutines running `watchLoop` that have not
been sent a stop signal. -/
structure Watcher where
  registry : Registry
  resourcesDir : GoString
  toolsDir : GoString
  isRunning : Bool
  loops : Nat

/-- The function `NewWatcher`. -/
def NewWatcher (fs : WatchHost) (resourcesDir toolsDir : GoString) (registry : Registry) :
    Except GoError Watcher :=
  match fs.NewWatcher with
  | some err => .error (str "failed to create fsnotify watcher: " ++ err)
  | none =>
    .ok { registry := registry, resourcesDir := resourcesDir, toolsDir := toolsDir,
          isRunning := false, loops := 0 }

/-- The method `Watcher.IsRunning`. -/
def IsRunning (w : Watcher) : Bool := w.isRunning

/-- The loop of `Watcher.ensureDirectories` over the directories still to
create. -/
def ensureDirectoriesLoop (fs : WatchHost) : List GoString → Option GoError
  | [] => none
  | dir :: dirs =>
    match fs.MkdirAll dir with
    | some err => some (str "failed to create directory " ++ dir ++ str ": " ++ err)
    | none => ensureDirectoriesLoop fs dirs

/-- The method `Watcher.ensureDirectories`. -/
def ensureDirectories (fs : WatchHost) (w : Watcher) : Option GoError :=
  ensureDirectoriesLoop fs [w.resourcesDir, w.toolsDir]

/-- The body of the loop of `Watcher.scanDirectory` for one entry. -/
def scanEntry (h : Host) (dir itemType : GoString) (r : Registry) (entry : DirEntry) :
    Registry :=
  if entry.IsDir then r
  else
    let filePath := Join dir entry.Name
    let name := TrimSuffix entry.Name (Ext entry.Name)
    if itemType = str "resource" then (RegisterResource h r name filePath).1
    else if itemType = str "tool" then
      (RegisterTool h r name filePath (str "MCP tool: " ++ name)).1
    else r

/-- The method `Watcher.scanDirectory`: the registry after the call and the
error returned. -/
def scanDirectory (h : Host) (fs : WatchHost) (r : Registry) (dir itemType : GoString) :
    Registry × Option GoError :=
  match fs.ReadDir dir with
  | .error err => (r, some (str "failed to read directory " ++ dir ++ str ": " ++ err))
  | .ok entries => (entries.foldl (scanEntry h dir itemType) r, none)

/-- The method `Watcher.scanExistingFiles`. -/
def scanExistingFiles (h : Host) (fs : WatchHost) (w : Watcher) : Watcher × Option GoError :=
  match scanDirectory h fs w.registry w.resourcesDir (str "resource") with
  | (r1, some err) =>
    ({ w with registry := r1 }, some (str "failed to scan resources directory: " ++ err))
  | (r1, none) =>
    match scanDirectory h fs r1 w.toolsDir (str "tool") with
    | (r2, some err) =>
      ({ w with registry := r2 }, some (str "failed to scan tools directory: " ++ err))
    | (r2, none) => ({ w with registry := r2 }, none)

/-- The method `Watcher.Start`: the watcher after the call and the error
returned.  The statement `go w.watchLoop()` adds one to `loops`. -/
def Start (h : Host) (fs : WatchHost) (w : Watcher) : Watcher × Option GoError :=
  match ensureDirectories fs w with
  | some err => (w, some (str "failed to ensure directories: " ++ err))
  | none =>
    match fs.Add w.resourcesDir with
    | some err => (w, some (str "failed to add resources directory to watcher: " ++ err))
    | none =>
      match fs.Add w.toolsDir with
      | some err => (w, some (str "failed to add tools directory to watcher: " ++ err))
      | none =>
        match scanExistingFiles h fs w with
        | (w1, some err) => (w1, some (str "failed to scan existing files: " ++ err))
        | (w1, none) => ({ w1 with isRunning := true, loops := w1.loops + 1 }, none)

/-- The method `Watcher.Stop`: the watcher after the call and the error
returned; `none` when the call does not return, the send on `stopChan` finding
no loop to receive it. -/
def Stop (fs : WatchHost) (w : Watcher) : Option (Watcher × Option GoError) :=
  if !w.isRunning then some (w, none)
  else if w.loops = 0 then none
  else
    match fs.Close with
    | some err =>
      some ({ w with isRunning := false, loops := w.loops - 1 },
        some (str "failed to close watcher: " ++ err))
    | none => some ({ w with isRunning := false, loops := w.loops - 1 }, none)

/-- The method `Watcher.handleEvent`: the watcher with the registry after the
call. -/
def handleEvent (h : Host) (w : Watcher) (event : Event) : Watcher :=
  if HasPrefix (Base event.Name) (str ".") then w
  else
    let isResource := HasPrefix event.Name w.resourcesDir
    let isTool := HasPrefix event.Name w.toolsDir
    if !isResource && !isTool then w
    else
      let name := TrimSuffix (Base event.Name) (Ext event.Name)
      if event.Op = Op.Create ∨ event.Op = Op.Write then
        if isResource then
          { w with registry := (RegisterResource h w.registry name event.Name).1 }
        else if isTool then
          { w with registry :=
              (RegisterTool h w.registry name event.Name (str "MCP tool: " ++ name)).1 }
        else w
      else if event.Op = Op.Remove then
        if isResource then { w with registry := UnregisterResource w.registry name }
        else if isTool then { w with registry := UnregisterTool w.registry name }
        else w
      else if event.Op = Op.Rename then
        if isResource then { w with registry := UnregisterResource w.registry name }
        else if isTool then { w with registry := UnregisterTool w.registry name }
        else w
      else w

/-! ## handlers/handler.go: tool execution -/

/-- Which case of the `select` in `executeGoPlugin` is taken: the plugin function
returns a result or an error before the timer fires, or the timer fires first. -/
inductive PluginRun where
  | result (out : GoString)
  | failure (err : GoError)
  | timeout

/-- How far `executePythonScript` gets: an error of `StdinPipe`, of `Start` or of
the write to standard input; the process ending before the timer fires, with the
error of `Wait` and the two captured streams; or the timer firing first. -/
inductive ScriptRun where
  | pipeError (err : GoError)
  | startError (err : GoError)
  | writeError (err : GoError)
  | exited (err : Option GoError) (stdout stderr : GoString)
  | timeout

/-- What running a tool does on the machine. -/
structure ExecHost where
  /-- Calling the function behind a plugin symbol on an input. -/
  callPlugin : Symbol → GoString → PluginRun
  /-- Running `python3` on a script path with an input on standard input. -/
  runScript : GoString → GoString → ScriptRun

/-- The method `MCPHandler.executeGoPlugin`. -/
def executeGoPlugin (h : Host) (x : ExecHost) (toolInfo : ToolInfo) (input : GoString) :
    Except GoError GoString :=
  match toolInfo.Handler with
  | none => .error (str "no handler found for tool " ++ toolInfo.Name)
  | some (.path _) =>
    .error (str "invalid Execute function signature for tool " ++ toolInfo.Name)
  | some (.symbol s) =>
    if s.isExecuteFunc then
      match x.callPlugin s input with
      | .result out => validateAndFormatOutput h out
      | .failure err => .error (str "go plugin execution failed: " ++ err)
      | .timeout => .error (str "go plugin execution timed out after 30 seconds")
    else .error (str "invalid Execute function signature for tool " ++ toolInfo.Name)

/-- The method `MCPHandler.executePythonScript`. -/
def executePythonScript (h : Host) (x : ExecHost) (toolInfo : ToolInfo) (input : GoString) :
    Except GoError GoString :=
  match x.runScript toolInfo.FilePath input with
  | .pipeError err => .error (str "failed to create stdin pipe: " ++ err)
  | .startError err => .error (str "failed to start Python script: " ++ err)
  | .writeError err => .error (str "failed to write to stdin: " ++ err)
  | .exited (some err) _ stderr =>
    .error (str "Python script execution failed: " ++ err ++ str ", stderr: " ++ stderr)
  | .exited none stdout _ => validateAndFormatOutput h stdout
  | .timeout => .error (str "Python script execution timed out after 30 seconds")

/-- The method `MCPHandler.ExecuteTool`. -/
def ExecuteTool (h : Host) (x : ExecHost) (toolInfo : ToolInfo) (input : GoString) :
    Except GoError GoString :=
  match ValidateInput h input with
  | some err => .error (str "invalid input: " ++ err)
  | none =>
    match toolInfo.Type_ with
    | .GoPluginTool => executeGoPlugin h x toolInfo input
    | .PythonTool => executePythonScript h x toolInfo input
    | .UnknownTool => .error (str "unsupported tool type: " ++ toolInfo.Type_.value)

/-! ## Sequences of registry calls -/

/-- A call that changes the registry. -/
inductive RegistryCall where
  | registerResource (name filePath : GoString)
  | registerTool (name filePath description : GoString)
  | unregisterResource (name : GoString)
  | unregisterTool (name : GoString)
deriving DecidableEq, Repr

/-- The registry after one call, made on the machine `h`. -/
def RegistryCall.run (r : Registry) : Host × RegistryCall → Registry
  | (h, .registerResource name filePath) => (RegisterResource h r name filePath).1
  | (h, .registerTool name filePath description) =>
    (RegisterTool h r name filePath description).1
  | (_, .unregisterResource name) => UnregisterResource r name
  | (_, .unregisterTool name) => UnregisterTool r name

/-- The registry reached from `NewRegistry` by a sequence of calls, each made on
its own machine state. -/
def runRegistryCalls (calls : List (Host × RegistryCall)) : Registry :=
  calls.foldl RegistryCall.run NewRegistry

/-! ## Sample plugins and watchers -/

/-- A plugin that exports `Execute` as a value that is not a
`func([]byte) ([]byte, error)`, and nothing else. -/
def mistypedPlugin : Plugin :=
  { Lookup := fun symName =>
      if symName = str "Execute" then .ok { id := 1, isExecuteFunc := false }
      else .error (str "plugin: symbol " ++ symName ++ str " not found") }

/-- The machine `sampleHost` with the plugin `mistypedPlugin` at
`tools/bad.so`. -/
def pluginHost : Host :=
  { sampleHost with
    pluginOpen := fun filePath =>
      if filePath = str "tools/bad.so" then .ok mistypedPlugin
      else .error (str "plugin.Open(\"" ++ filePath ++ str "\"): not found") }

/-- A machine on which every plugin call and every script run times out. -/
def sampleExecHost : ExecHost :=
  { callPlugin := fun _ _ => .timeout
    runScript := fun _ _ => .timeout }

/-- A file system on which every call succeeds, with `.notes.md` and `notes.md`
in `resources` and `readme.txt` and `calc.py` in `tools`. -/
def sampleWatchHost : WatchHost :=
  { NewWatcher := none
    MkdirAll := fun _ => none
    Add := fun _ => none
    ReadDir := fun dir =>
      if dir = str "resources" then
        .ok [{ Name := str ".notes.md", IsDir := false }, { Name := str "notes.md", IsDir := false }]
      else if dir = str "tools" then
        .ok [{ Name := str "calc.py", IsDir := false }, { Name := str "readme.txt", IsDir := false }]
      else .error (str "open " ++ dir ++ str ": no such file or directory")
    Close := none }

/-- A file system on which no directory can be created. -/
def brokenWatchHost : WatchHost :=
  { sampleWatchHost with MkdirAll := fun dir => some (str "mkdir " ++ dir ++ str ": permission denied") }

/-- A new watcher on `resources` and `tools` with an empty registry. -/
def sampleWatcher : Watcher :=
  { registry := NewRegistry, resourcesDir := str "resources", toolsDir := str "tools",
    isRunning := false, loops := 0 }

/-- The watcher `sampleWatcher` on the registry `sampleRegistry`. -/
def notesWatcher : Watcher := { sampleWatcher with registry := sampleRegistry }

/-! ## registry/registry.go: export -/

mutual
/-- A value `ExportRegistry` hands to `json.MarshalIndent`: an `int`, a string, an
input schema, or a struct or map given by its entries in the order the encoder
writes them (declaration order for a struct, key order for a map). -/
inductive ExportValue where
  | int (n : Nat)
  | string (s : GoString)
  | schema (v : JValue)
  | object (fields : ExportFields)
/-- The entries of a struct or map. -/
inductive ExportFields where
  | nil
  | cons (key : GoString) (value : ExportValue) (tail : ExportFields)
end

/-- The entries given as a list. -/
def ExportFields.ofList : List (GoString × ExportValue) → ExportFields
  | [] => .nil
  | (k, v) :: rest => .cons k v (ExportFields.ofList rest)

/-- The keys of the entries, in order. -/
def ExportFields.keys : ExportFields → List GoString
  | .nil => []
  | .cons k _ t => k :: t.keys

/-- The value of an entry, by key. -/
def ExportFields.lookup (key : GoString) : ExportFields → Option ExportValue
  | .nil => none
  | .cons k v t => if k = key then some v else ExportFields.lookup key t

/-- Placing an entry of a map among entries already in key order. -/
def ExportFields.insertSorted (k : GoString) (v : ExportValue) : ExportFields → ExportFields
  | .nil => .cons k v .nil
  | .cons k2 v2 t =>
    if keyLess k2 k then .cons k2 v2 (ExportFields.insertSorted k v t)
    else .cons k v (.cons k2 v2 t)

/-- The struct `ResourceInfo` as the encoder sees it, by its `json` tags. -/
def resourceRecord (info : ResourceInfo) : ExportValue :=
  .object (.cons (str "name") (.string info.Name)
    (.cons (str "file_path") (.string info.FilePath)
      (.cons (str "type") (.string info.Type_.value)
        (.cons (str "mime_type") (.string info.MimeType) .nil))))

/-- The struct `ToolInfo` as the encoder sees it, by its `json` tags; the field
`Handler` has the tag `-`. -/
def toolRecord (info : ToolInfo) : ExportValue :=
  .object (.cons (str "name") (.string info.Name)
    (.cons (str "description") (.string info.Description)
      (.cons (str "file_path") (.string info.FilePath)
        (.cons (str "type") (.string info.Type_.value)
          (.cons (str "input_schema") (.schema info.InputSchema) .nil)))))

/-- A map of the registry as the encoder sees it: one entry per key, in key
order. -/
def exportMap {β : Type} (m : Finmap (fun _ : GoString => β)) (enc : β → ExportValue) :
    ExportFields :=
  ExportFields.ofList
    ((m.keys.sort (fun a b => a ≤ b)).filterMap
      (fun k => (m.lookup k).map (fun v => (k, enc v))))

/-- The map `export` of `ExportRegistry`, its three entries in key order. -/
def exportDocument (r : Registry) : ExportValue :=
  .object
    (ExportFields.insertSorted (str "resources") (.object (exportMap r.resources resourceRecord))
      (ExportFields.insertSorted (str "tools") (.object (exportMap r.tools toolRecord))
        (ExportFields.insertSorted (str "counts")
          (.object
            (ExportFields.insertSorted (str "resources") (.int r.resources.keys.card)
              (ExportFields.insertSorted (str "tools") (.int r.tools.keys.card) .nil)))
          .nil)))

/-- The line break `json.Indent` writes at a nesting depth, with the indent of
two spaces `ExportRegistry` asks for. -/
def indentNewline (depth : Nat) : GoString := 0x0A :: List.replicate (2 * depth) 0x20

mutual
/-- The indented encoding of a value whose maps are in key order. -/
def JValue.encodeIndent (depth : Nat) : JValue → GoString
  | .string s => appendString s
  | .array .nil => [0x5B, 0x5D]
  | .array (.cons v t) =>
    [0x5B] ++ indentNewline (depth + 1) ++ v.encodeIndent (depth + 1) ++
      t.encodeIndentRest (depth + 1) ++ indentNewline depth ++ [0x5D]
  | .object .nil => [0x7B, 0x7D]
  | .object (.cons k v t) =>
    [0x7B] ++ indentNewline (depth + 1) ++ appendString k ++ [0x3A, 0x20] ++
      v.encodeIndent (depth + 1) ++ t.encodeIndentRest (depth + 1) ++ indentNewline depth ++
      [0x7D]
/-- The indented encoding of the elements after the first. -/
def JItems.encodeIndentRest (depth : Nat) : JItems → GoString
  | .nil => []
  | .cons v t => [0x2C] ++ indentNewline depth ++ v.encodeIndent depth ++ t.encodeIndentRest depth
/-- The indented encoding of the entries after the first. -/
def JFields.encodeIndentRest (depth : Nat) : JFields → GoString
  | .nil => []
  | .cons k v t =>
    [0x2C] ++ indentNewline depth ++ appendString k ++ [0x3A, 0x20] ++ v.encodeIndent depth ++
      t.encodeIndentRest depth
end

/-- The decimal digits of a non-negative `int`, as `strconv.AppendInt` writes
them. -/
def decimal (n : Nat) : GoString := (Nat.toDigits 10 n).map Char.toNat

mutual
/-- The indented encoding of an exported value. -/
def ExportValue.encodeIndent (depth : Nat) : ExportValue → GoString
  | .int n => decimal n
  | .string s => appendString s
  | .schema v => v.sortKeys.encodeIndent depth
  | .object .nil => [0x7B, 0x7D]
  | .object (.cons k v t) =>
    [0x7B] ++ indentNewline (depth + 1) ++ appendString k ++ [0x3A, 0x20] ++
      v.encodeIndent (depth + 1) ++ t.encodeIndentRest (depth + 1) ++ indentNewline depth ++
      [0x7D]
/-- The indented encoding of the entries after the first. -/
def ExportFields.encodeIndentRest (depth : Nat) : ExportFields → GoString
  | .nil => []
  | .cons k v t =>
    [0x2C] ++ indentNewline depth ++ appendString k ++ [0x3A, 0x20] ++ v.encodeIndent depth ++
      t.encodeIndentRest depth
end

/-- The method `Registry.ExportRegistry`: `json.MarshalIndent` of the map
`export` with an empty prefix and an indent of two spaces, which returns no error
on such a value. -/
def ExportRegistry (r : Registry) : Except GoError GoString :=
  .ok ((exportDocument r).encodeIndent 0)

/-! ## One entry of the tools directory on its own -/

/-- The call `scanDirectory` makes to `RegisterTool` for an entry of the tools
directory, made on an empty registry: the registry after it and the error
returned. -/
def registerEntryAlone (h : Host) (dir : GoString) (entry : DirEntry) :
    Registry × Option GoError :=
  RegisterTool h NewRegistry (TrimSuffix entry.Name (Ext entry.Name)) (Join dir entry.Name)
    (str "MCP tool: " ++ TrimSuffix entry.Name (Ext entry.Name))

/-- The file system `sampleWatchHost` with a `tools` directory that lists, in
this order, `readme.txt`, `calc.py`, `calc.txt`, the directory `lib.py` and
`zip.so`. -/
def mixedWatchHost : WatchHost :=
  { sampleWatchHost with
    ReadDir := fun dir =>
      if dir = str "tools" then
        .ok [{ Name := str "readme.txt", IsDir := false },
             { Name := str "calc.py", IsDir := false },
             { Name := str "calc.txt", IsDir := false },
             { Name := str "lib.py", IsDir := true },
             { Name := str "zip.so", IsDir := false }]
      else .error (str "open " ++ dir ++ str ": no such file or directory") }

/-! ## Watchers on the default directories, after a scan, and on overlapping directories -/

/-- A file system on which every call succeeds, with `notes.md` in `./resources`
and nothing in `./tools`. -/
def defaultWatchHost : WatchHost :=
  { sampleWatchHost with
    ReadDir := fun dir =>
      if dir = str "./resources" then .ok [{ Name := str "notes.md", IsDir := false }]
      else if dir = str "./tools" then .ok []
      else .error (str "open " ++ dir ++ str ": no such file or directory") }

/-- A new watcher on `./resources` and `./tools`, the directories `main` and
`DefaultConfig` use when none is configured, with an empty registry. -/
def defaultWatcher : Watcher :=
  { registry := NewRegistry, resourcesDir := str "./resources", toolsDir := str "./tools",
    isRunning := false, loops := 0 }

/-- The watcher `sampleWatcher` with the registry `scanDirectory` leaves after the
scan of `resources` on `sampleWatchHost`. -/
def scannedWatcher : Watcher :=
  { sampleWatcher with
    registry :=
      (scanDirectory sampleHost sampleWatchHost NewRegistry (str "resources") (str "resource")).1 }

/-- A watcher on the directories `data` and `data-tools` whose registry holds the
script tool `calc` of `data-tools/calc.py`. -/
def overlapWatcher : Watcher :=
  { registry :=
      (RegisterTool sampleHost NewRegistry (str "calc") (str "data-tools/calc.py")
        (str "MCP tool: calc")).1
    resourcesDir := str "data", toolsDir := str "data-tools", isRunning := false, loops := 0 }


/-! ## Lemmas on maps -/

theorem keys_insert_eq {β : Type} (m : Finmap (fun _ : GoString => β)) (k : GoString) (v : β) :
    (m.insert k v).keys = insert k m.keys := by
  ext a
  simp [Finmap.mem_keys, Finmap.mem_insert]

theorem card_keys_insert_of_mem {β : Type} (m : Finmap (fun _ : GoString => β)) (k : GoString)
    (v : β) (hk : k ∈ m) : (m.insert k v).keys.card = m.keys.card := by
  rw [keys_insert_eq, Finset.insert_eq_of_mem (Finmap.mem_keys.mpr hk)]

theorem erase_of_lookup_none {β : Type} (m : Finmap (fun _ : GoString => β)) (k : GoString)
    (hk : m.lookup k = none) : m.erase k = m := by
  apply Finmap.ext_lookup
  intro x
  by_cases hx : x = k
  · subst hx
    rw [Finmap.lookup_erase, hk]
  · rw [Finmap.lookup_erase_ne hx]

/-! ## Lemmas on the classifiers -/

theorem determineResourceType_eq (h : Host) (filePath : GoString) :
    determineResourceType h filePath =
      if lowerExt h filePath = str ".sql" then .DatabaseResource else .FileResource := by
  unfold determineResourceType
  simp only []
  split_ifs <;> rfl

theorem RegisterTool_python (h : Host) (r : Registry) (name filePath description : GoString)
    (hpy : lowerExt h filePath = str ".py") :
    RegisterTool h r name filePath description =
      ({ r with
          tools := r.tools.insert name
            { Name := name, Description := description, FilePath := filePath,
              Type_ := .PythonTool, InputSchema := generateInputSchema .PythonTool,
              Handler := some (.path filePath) } }, none) := by
  have hne : str ".py" ≠ str ".so" := by decide
  have ht : determineToolType h filePath = .PythonTool := by
    simp [determineToolType, hpy, hne]
  simp [RegisterTool, ht, loadToolHandler, loadPythonScript]

/-! ## Claims -/

/-- C1: when `RegisterTool` returns an error, the registry after the call is the
registry before it; `GetToolCount` is unchanged and `GetTool` answers every name
as before. -/
theorem RegisterTool_error_leaves_registry (h : Host) (r : Registry)
    (name filePath description : GoString)
    (herr : (RegisterTool h r name filePath description).2 ≠ none) :
    (RegisterTool h r name filePath description).1 = r ∧
    GetToolCount (RegisterTool h r name filePath description).1 = GetToolCount r ∧
    ∀ n, GetTool (RegisterTool h r name filePath description).1 n = GetTool r n := by
  have hst : (RegisterTool h r name filePath description).1 = r := by
    unfold RegisterTool at herr ⊢
    simp only [] at herr ⊢
    split
    · rfl
    · rename_i handler hok
      simp [hok] at herr
  rw [hst]
  exact ⟨rfl, rfl, fun _ => rfl⟩

/-- Witness for C1: registering `calc` again from `tools/calc.txt`, whose
extension is unknown, fails and leaves `sampleRegistry` as it was. -/
theorem RegisterTool_error_leaves_registry_witness :
    (RegisterTool sampleHost sampleRegistry (str "calc") (str "tools/calc.txt") (str "d")).2
        ≠ none ∧
    ((RegisterTool sampleHost sampleRegistry (str "calc") (str "tools/calc.txt") (str "d")).1
        = sampleRegistry ∧
      GetToolCount
        (RegisterTool sampleHost sampleRegistry (str "calc") (str "tools/calc.txt") (str "d")).1
        = GetToolCount sampleRegistry ∧
      ∀ n, GetTool
        (RegisterTool sampleHost sampleRegistry (str "calc") (str "tools/calc.txt") (str "d")).1 n
        = GetTool sampleRegistry n) :=
  ⟨by decide,
   RegisterTool_error_leaves_registry sampleHost sampleRegistry (str "calc")
     (str "tools/calc.txt") (str "d") (by decide)⟩

/-- C2: `RegisterResource` returns no error, and `GetResource` of the same name
right after it finds the descriptor with the given name and path, the MIME type
of `determineMimeType`, and type database when the lower-cased extension is
`.sql`, file otherwise; the type is never api or unknown. -/
theorem RegisterResource_then_GetResource (h : Host) (r : Registry) (name filePath : GoString) :
    (RegisterResource h r name filePath).2 = none ∧
    GetResource (RegisterResource h r name filePath).1 name =
      some { Name := name, FilePath := filePath,
             Type_ := if lowerExt h filePath = str ".sql" then .DatabaseResource
                      else .FileResource,
             MimeType := determineMimeType h filePath } ∧
    determineResourceType h filePath ≠ .APIRResource ∧
    determineResourceType h filePath ≠ .UnknownResource := by
  refine ⟨rfl, ?_, ?_, ?_⟩
  · simp [GetResource, RegisterResource, determineResourceType_eq]
  · rw [determineResourceType_eq]; split_ifs <;> simp
  · rw [determineResourceType_eq]; split_ifs <;> simp

/-- C3: registering a name twice keeps one entry, the second one.  For resources
`GetResource` returns the descriptor built from the second path and the count is
the count after the first call; for tools the same holds when both calls
succeed, the stored handle being the one loaded for the second path. -/
theorem Register_same_name_overwrites (h : Host) (r : Registry)
    (name p1 p2 d1 d2 : GoString) :
    (GetResource (RegisterResource h (RegisterResource h r name p1).1 name p2).1 name =
        some { Name := name, FilePath := p2, Type_ := determineResourceType h p2,
               MimeType := determineMimeType h p2 } ∧
      GetResourceCount (RegisterResource h (RegisterResource h r name p1).1 name p2).1 =
        GetResourceCount (RegisterResource h r name p1).1) ∧
    ((RegisterTool h r name p1 d1).2 = none →
      (RegisterTool h (RegisterTool h r name p1 d1).1 name p2 d2).2 = none →
      (∃ handler,
        loadToolHandler h
            { Name := name, Description := d2, FilePath := p2, Type_ := determineToolType h p2,
              InputSchema := generateInputSchema (determineToolType h p2), Handler := none }
          = .ok handler ∧
        GetTool (RegisterTool h (RegisterTool h r name p1 d1).1 name p2 d2).1 name =
          some { Name := name, Description := d2, FilePath := p2,
                 Type_ := determineToolType h p2,
                 InputSchema := generateInputSchema (determineToolType h p2),
                 Handler := some handler }) ∧
      GetToolCount (RegisterTool h (RegisterTool h r name p1 d1).1 name p2 d2).1 =
        GetToolCount (RegisterTool h r name p1 d1).1) := by
  refine ⟨⟨?_, ?_⟩, ?_⟩
  · simp [GetResource, RegisterResource]
  · simp only [GetResourceCount, RegisterResource]
    exact card_keys_insert_of_mem _ _ _ (by simp [Finmap.mem_insert])
  · intro h1 h2
    unfold RegisterTool at h1 h2 ⊢
    simp only [] at h1 h2 ⊢
    cases hl1 : loadToolHandler h
        { Name := name, Description := d1, FilePath := p1, Type_ := determineToolType h p1,
          InputSchema := generateInputSchema (determineToolType h p1), Handler := none } with
    | error e => simp [hl1] at h1
    | ok hd1 =>
      cases hl2 : loadToolHandler h
          { Name := name, Description := d2, FilePath := p2, Type_ := determineToolType h p2,
            InputSchema := generateInputSchema (determineToolType h p2), Handler := none } with
      | error e => simp [hl2] at h2
      | ok hd2 =>
        refine ⟨⟨hd2, rfl, ?_⟩, ?_⟩
        · simp [GetTool]
        · simp only [GetToolCount]
          exact card_keys_insert_of_mem _ _ _ (by simp [Finmap.mem_insert])

/-- Witness for C3: two successful registrations of the tool `calc`, from
`tools/calc.py` and then from `tools/calc2.py`. -/
theorem Register_same_name_overwrites_witness :
    (RegisterTool sampleHost NewRegistry (str "calc") (str "tools/calc.py") (str "a")).2 = none ∧
    (RegisterTool sampleHost
      (RegisterTool sampleHost NewRegistry (str "calc") (str "tools/calc.py") (str "a")).1
      (str "calc") (str "tools/calc2.py") (str "b")).2 = none ∧
    GetToolCount (RegisterTool sampleHost
      (RegisterTool sampleHost NewRegistry (str "calc") (str "tools/calc.py") (str "a")).1
      (str "calc") (str "tools/calc2.py") (str "b")).1 =
    GetToolCount
      (RegisterTool sampleHost NewRegistry (str "calc") (str "tools/calc.py") (str "a")).1 :=
  ⟨by decide, by decide,
   ((Register_same_name_overwrites sampleHost NewRegistry (str "calc") (str "tools/calc.py")
      (str "tools/calc2.py") (str "a") (str "b")).2 (by decide) (by decide)).2⟩

/-- C4: after `UnregisterResource` the name is absent from the resources, every
other resource name and every tool name is looked up as before, and a name that
was absent leaves the registry unchanged; likewise for `UnregisterTool`.  Both are
total and return no error value. -/
theorem Unregister_frame (r : Registry) (name : GoString) :
    (GetResource (UnregisterResource r name) name = none ∧
      (∀ n, n ≠ name → GetResource (UnregisterResource r name) n = GetResource r n) ∧
      (∀ n, GetTool (UnregisterResource r name) n = GetTool r n) ∧
      (GetResource r name = none → UnregisterResource r name = r)) ∧
    (GetTool (UnregisterTool r name) name = none ∧
      (∀ n, n ≠ name → GetTool (UnregisterTool r name) n = GetTool r n) ∧
      (∀ n, GetResource (UnregisterTool r name) n = GetResource r n) ∧
      (GetTool r name = none → UnregisterTool r name = r)) := by
  constructor
  · unfold UnregisterResource GetResource GetTool
    refine ⟨?_, ?_, ?_, ?_⟩
    · split_ifs with hp
      · exact Finmap.lookup_erase _ _
      · simpa using hp
    · intro n hn
      split_ifs with hp
      · exact Finmap.lookup_erase_ne hn
      · rfl
    · intro n
      split_ifs <;> rfl
    · intro hnone
      simp [hnone]
  · unfold UnregisterTool GetResource GetTool
    refine ⟨?_, ?_, ?_, ?_⟩
    · split_ifs with hp
      · exact Finmap.lookup_erase _ _
      · simpa using hp
    · intro n hn
      split_ifs with hp
      · exact Finmap.lookup_erase_ne hn
      · rfl
    · intro n
      split_ifs <;> rfl
    · intro hnone
      simp [hnone]

/-- Witness for C4: unregistering the name `ghost`, registered in neither
collection of `sampleRegistry`, leaves the registry unchanged and `notes` in
place. -/
theorem Unregister_frame_witness :
    GetResource sampleRegistry (str "ghost") = none ∧
    GetTool sampleRegistry (str "ghost") = none ∧
    str "notes" ≠ str "ghost" ∧
    UnregisterResource sampleRegistry (str "ghost") = sampleRegistry ∧
    UnregisterTool sampleRegistry (str "ghost") = sampleRegistry ∧
    GetResource (UnregisterResource sampleRegistry (str "ghost")) (str "notes") =
      GetResource sampleRegistry (str "notes") :=
  ⟨by decide, by rfl, by decide,
   (Unregister_frame sampleRegistry (str "ghost")).1.2.2.2 (by decide),
   (Unregister_frame sampleRegistry (str "ghost")).2.2.2.2 (by rfl),
   (Unregister_frame sampleRegistry (str "ghost")).1.2.1 (str "notes") (by decide)⟩

/-- C5: `determineToolType` looks at the lower-cased extension only: it returns
go_plugin exactly for `.so`, python exactly for `.py`, unknown for every other
path; and on a path it classifies unknown `RegisterTool` returns an error whose
message contains "unsupported tool type". -/
theorem determineToolType_classification (h : Host) :
    (∀ p, determineToolType h p = .GoPluginTool ↔ lowerExt h p = str ".so") ∧
    (∀ p, determineToolType h p = .PythonTool ↔ lowerExt h p = str ".py") ∧
    (∀ p, determineToolType h p = .UnknownTool ↔
      (lowerExt h p ≠ str ".so" ∧ lowerExt h p ≠ str ".py")) ∧
    (∀ (r : Registry) (name p description : GoString), determineToolType h p = .UnknownTool →
      ∃ msg, (RegisterTool h r name p description).2 = some msg ∧
        str "unsupported tool type" <:+: msg) := by
  have hne : str ".py" ≠ str ".so" := by decide
  refine ⟨?_, ?_, ?_, ?_⟩
  · intro p
    unfold determineToolType
    simp only []
    split_ifs with h1 h2 <;> simp [h1]
  · intro p
    unfold determineToolType
    simp only []
    split_ifs with h1 h2
    · simp [h1, hne.symm]
    · simp [h2]
    · simp [h2]
  · intro p
    unfold determineToolType
    simp only []
    split_ifs with h1 h2
    · simp [h1]
    · simp [h2]
    · simp [h1, h2]
  · intro r name p description hu
    refine ⟨str "failed to load handler for tool " ++ name ++ str ": " ++
      (str "unsupported tool type: " ++ ToolType.UnknownTool.value), ?_, ?_⟩
    · simp [RegisterTool, hu, loadToolHandler]
    · refine ⟨str "failed to load handler for tool " ++ name ++ str ": ",
        str ": " ++ ToolType.UnknownTool.value, ?_⟩
      have hs : str "unsupported tool type: " = str "unsupported tool type" ++ str ": " := by
        decide
      rw [hs]
      simp [List.append_assoc]

/-- Witness for C5: `tools/readme.txt` is classified unknown and its
registration fails with the "unsupported tool type" message. -/
theorem determineToolType_classification_witness :
    determineToolType sampleHost (str "tools/readme.txt") = .UnknownTool ∧
    ∃ msg, (RegisterTool sampleHost NewRegistry (str "readme") (str "tools/readme.txt")
        (str "MCP tool: readme")).2 = some msg ∧ str "unsupported tool type" <:+: msg :=
  ⟨by decide,
   (determineToolType_classification sampleHost).2.2.2 NewRegistry (str "readme")
     (str "tools/readme.txt") (str "MCP tool: readme") (by decide)⟩

/-- C6: `determineMimeType` depends on the path through its lower-cased
extension only; it maps `.json`, `.yaml`, `.yml`, `.xml`, `.md`, `.txt`, `.csv`
and `.sql` to the fixed table (so `notes.md` and `NOTES.MD` both give
`text/markdown`), and any other extension to the system lookup of the lower-cased
extension. -/
theorem determineMimeType_table (h : Host) :
    (∀ p q, lowerExt h p = lowerExt h q → determineMimeType h p = determineMimeType h q) ∧
    (∀ p, lowerExt h p = str ".json" → determineMimeType h p = str "application/json") ∧
    (∀ p, lowerExt h p = str ".yaml" → determineMimeType h p = str "application/x-yaml") ∧
    (∀ p, lowerExt h p = str ".yml" → determineMimeType h p = str "application/x-yaml") ∧
    (∀ p, lowerExt h p = str ".xml" → determineMimeType h p = str "application/xml") ∧
    (∀ p, lowerExt h p = str ".md" → determineMimeType h p = str "text/markdown") ∧
    (∀ p, lowerExt h p = str ".txt" → determineMimeType h p = str "text/plain") ∧
    (∀ p, lowerExt h p = str ".csv" → determineMimeType h p = str "text/csv") ∧
    (∀ p, lowerExt h p = str ".sql" → determineMimeType h p = str "text/sql") ∧
    determineMimeType h (str "notes.md") = str "text/markdown" ∧
    determineMimeType h (str "NOTES.MD") = str "text/markdown" ∧
    (∀ p, lowerExt h p ∉ [str ".json", str ".yaml", str ".yml", str ".xml", str ".md",
        str ".txt", str ".csv", str ".sql"] →
      determineMimeType h p = h.TypeByExtension (lowerExt h p)) := by
  refine ⟨?_, ?_, ?_, ?_, ?_, ?_, ?_, ?_, ?_, rfl, rfl, ?_⟩
  · intro p q hpq
    simp only [determineMimeType, hpq]
  all_goals intro p hp
  any_goals (simp only [determineMimeType, hp]; rfl)
  simp only [List.mem_cons, List.mem_singleton, List.not_mem_nil, or_false, not_or] at hp
  obtain ⟨h1, h2, h3, h4, h5, h6, h7, h8⟩ := hp
  simp [determineMimeType, h1, h2, h3, h4, h5, h6, h7, h8]

/-- Witness for C6: the paths `notes.md` and `docs/README.MD` have the same
lower-cased extension and the same MIME type, `text/markdown`. -/
theorem determineMimeType_table_witness :
    lowerExt sampleHost (str "notes.md") = lowerExt sampleHost (str "docs/README.MD") ∧
    determineMimeType sampleHost (str "notes.md") =
      determineMimeType sampleHost (str "docs/README.MD") ∧
    determineMimeType sampleHost (str "docs/README.MD") = str "text/markdown" :=
  ⟨by decide,
   (determineMimeType_table sampleHost).1 (str "notes.md") (str "docs/README.MD") (by decide),
   (determineMimeType_table sampleHost).2.2.2.2.2.1 (str "docs/README.MD") (by decide)⟩

/-- C10: for a path whose lower-cased extension is `.py`, `RegisterTool` returns
no error and stores a descriptor of type python whose handle is the path itself;
the result does not depend on the plugin loader or on the file system, so no
file has to exist. -/
theorem RegisterTool_python_script (h : Host) (r : Registry)
    (name filePath description : GoString) (hpy : lowerExt h filePath = str ".py") :
    (RegisterTool h r name filePath description).2 = none ∧
    GetTool (RegisterTool h r name filePath description).1 name =
      some { Name := name, Description := description, FilePath := filePath,
             Type_ := .PythonTool, InputSchema := generateInputSchema .PythonTool,
             Handler := some (.path filePath) } ∧
    ∀ (pluginOpen : GoString → Except GoError Plugin)
      (ReadFile : GoString → Except GoError GoString),
      RegisterTool { h with pluginOpen := pluginOpen, ReadFile := ReadFile } r name filePath
          description =
        RegisterTool h r name filePath description := by
  refine ⟨?_, ?_, ?_⟩
  · rw [RegisterTool_python h r name filePath description hpy]
  · rw [RegisterTool_python h r name filePath description hpy]
    simp [GetTool]
  · intro pluginOpen ReadFile
    rw [RegisterTool_python h r name filePath description hpy,
      RegisterTool_python _ r name filePath description (by simpa [lowerExt] using hpy)]

/-- Witness for C10: on `sampleHost`, where no file exists, `tools/Missing.PY`
registers as a python tool with the path as handle. -/
theorem RegisterTool_python_script_witness :
    lowerExt sampleHost (str "tools/Missing.PY") = str ".py" ∧
    (RegisterTool sampleHost NewRegistry (str "Missing") (str "tools/Missing.PY")
      (str "MCP tool: Missing")).2 = none ∧
    GetTool (RegisterTool sampleHost NewRegistry (str "Missing") (str "tools/Missing.PY")
      (str "MCP tool: Missing")).1 (str "Missing") =
      some { Name := str "Missing", Description := str "MCP tool: Missing",
             FilePath := str "tools/Missing.PY", Type_ := .PythonTool,
             InputSchema := generateInputSchema .PythonTool,
             Handler := some (.path (str "tools/Missing.PY")) } :=
  ⟨by decide,
   (RegisterTool_python_script sampleHost NewRegistry (str "Missing") (str "tools/Missing.PY")
      (str "MCP tool: Missing") (by decide)).1,
   (RegisterTool_python_script sampleHost NewRegistry (str "Missing") (str "tools/Missing.PY")
      (str "MCP tool: Missing") (by decide)).2.1⟩


/-! ## Lemmas on UTF-8 decoding -/

theorem decodeRune_take_high (b : Nat) (rest : GoString) (hb : 0x80 ≤ b) :
    ∀ x ∈ (b :: rest).take (decodeRune (b :: rest)).2, 0x80 ≤ x := by
  have hlead : ∀ sz lo hi, leadByte b = some (sz, lo, hi) → 0x80 ≤ lo := by
    intro sz lo hi hl
    unfold leadByte at hl
    split_ifs at hl <;> simp at hl <;> omega
  rcases rest with _ | ⟨s1, _ | ⟨s2, _ | ⟨s3, rest3⟩⟩⟩ <;>
    simp only [decodeRune] <;>
    rw [if_neg (by omega)] <;>
    split
  all_goals first
    | (simp; done)
    | (simp; omega)
    | (rename_i sz lo hi hl
       have hlo := hlead sz lo hi hl
       split_ifs <;> simp <;> omega)

theorem decodeRune_width_pos (b : Nat) (rest : GoString) :
    1 ≤ (decodeRune (b :: rest)).2 := by
  simp only [decodeRune]
  repeat' split
  all_goals simp

theorem runeChunksFrom_high (s : GoString) :
    ∀ skip, ∀ ch ∈ runeChunksFrom skip s,
      ∃ b tl, ch.2 = b :: tl ∧ (0x80 ≤ b → ∀ x ∈ ch.2, 0x80 ≤ x) := by
  induction s with
  | nil => intro skip ch hch; simp [runeChunksFrom] at hch
  | cons b rest ih =>
    intro skip ch hch
    cases skip with
    | succ k => exact ih k ch (by simpa [runeChunksFrom] using hch)
    | zero =>
      simp only [runeChunksFrom, List.mem_cons] at hch
      rcases hch with rfl | hch
      · have hpos : 1 ≤ (decodeRune (b :: rest)).2 := decodeRune_width_pos b rest
        obtain ⟨n, hn⟩ : ∃ n, (decodeRune (b :: rest)).2 = n + 1 := ⟨_, (Nat.sub_add_cancel hpos).symm⟩
        refine ⟨b, rest.take n, by simp [hn], ?_⟩
        intro hb
        exact decodeRune_take_high b rest hb
      · exact ih _ ch hch

/-! ## Lemmas on the scanner inside a string literal -/

theorem read_plain (d : DecodeState) (c : Nat) (hs : d.scan.step = .InString)
    (hl : d.literal = []) (h1 : 0x20 ≤ c) (h2 : c ≠ 0x22) (h3 : c ≠ 0x5C) :
    d.read c = d := by
  obtain ⟨⟨step, ps, err, et⟩, lit, se⟩ := d
  simp only at hs hl
  subst hs hl
  have h4 : ¬ c < 0x20 := by omega
  simp [DecodeState.read, Scanner.scan, stateInString, h2, h3, h4, ScanStep.inNumber]

theorem read_all_plain (bytes : GoString) (d : DecodeState) (hs : d.scan.step = .InString)
    (hl : d.literal = []) (hb : ∀ c ∈ bytes, 0x20 ≤ c ∧ c ≠ 0x22 ∧ c ≠ 0x5C) :
    bytes.foldl DecodeState.read d = d := by
  induction bytes with
  | nil => rfl
  | cons c rest ih =>
    have hc := hb c (List.mem_cons_self _ _)
    rw [List.foldl_cons, read_plain d c hs hl hc.1 hc.2.1 hc.2.2]
    exact ih (fun x hx => hb x (List.mem_cons_of_mem _ hx))

theorem read_escape (d : DecodeState) (c : Nat) (hs : d.scan.step = .InString)
    (hl : d.literal = [])
    (hc : c = 0x62 ∨ c = 0x66 ∨ c = 0x6E ∨ c = 0x72 ∨ c = 0x74 ∨ c = 0x5C ∨ c = 0x2F ∨
      c = 0x22) :
    [0x5C, c].foldl DecodeState.read d = d := by
  obtain ⟨⟨step, ps, err, et⟩, lit, se⟩ := d
  simp only at hs hl
  subst hs hl
  simp [DecodeState.read, Scanner.scan, stateInString, stateInStringEsc, hc, ScanStep.inNumber]

theorem read_escape_u (d : DecodeState) (x1 x2 x3 x4 : Nat) (hs : d.scan.step = .InString)
    (hl : d.literal = []) (h1 : isHexDigit x1 = true) (h2 : isHexDigit x2 = true)
    (h3 : isHexDigit x3 = true) (h4 : isHexDigit x4 = true) :
    [0x5C, 0x75, x1, x2, x3, x4].foldl DecodeState.read d = d := by
  obtain ⟨⟨step, ps, err, et⟩, lit, se⟩ := d
  simp only at hs hl
  subst hs hl
  simp [DecodeState.read, Scanner.scan, stateInString, stateInStringEsc, stateInStringEscHex,
    h1, h2, h3, h4, ScanStep.inNumber]

theorem isHexDigit_hexDigit (n : Nat) (hn : n < 16) : isHexDigit (hexDigit n) = true := by
  simp only [isHexDigit, hexDigit, decide_eq_true_eq]
  split_ifs <;> omega

theorem read_escapeByte (d : DecodeState) (b : Nat) (hs : d.scan.step = .InString)
    (hl : d.literal = []) (hb : b < 0x80) :
    (escapeByte b).foldl DecodeState.read d = d := by
  unfold escapeByte
  split_ifs with h1 h2 h3 h4 h5 h6
  · exact read_escape d b hs hl (by omega)
  · exact read_escape d _ hs hl (by simp)
  · exact read_escape d _ hs hl (by simp)
  · exact read_escape d _ hs hl (by simp)
  · exact read_escape d _ hs hl (by simp)
  · exact read_escape d _ hs hl (by simp)
  · exact read_escape_u d _ _ _ _ hs hl (by decide) (by decide)
      (isHexDigit_hexDigit _ (by omega)) (isHexDigit_hexDigit _ (by omega))

theorem read_appendChunk (d : DecodeState) (ch : Nat × GoString)
    (hs : d.scan.step = .InString) (hl : d.literal = [])
    (hch : ∃ b tl, ch.2 = b :: tl ∧ (0x80 ≤ b → ∀ x ∈ ch.2, 0x80 ≤ x)) :
    (appendChunk ch).foldl DecodeState.read d = d := by
  obtain ⟨c, raw⟩ := ch
  obtain ⟨b, tl, hraw, hhigh⟩ := hch
  simp only at hraw hhigh
  subst hraw
  simp only [appendChunk]
  split_ifs with h1 h2 h3 h4
  · refine read_all_plain _ d hs hl ?_
    intro x hx
    simp only [htmlSafe, decide_eq_true_eq] at h2
    simp only [List.mem_singleton] at hx
    subst hx
    exact ⟨h2.1, h2.2.1, h2.2.2.1⟩
  · exact read_escapeByte d b hs hl h1
  · exact read_escape_u d 0x66 0x66 0x66 0x64 hs hl (by decide) (by decide) (by decide)
      (by decide)
  · have h5 : str "\\u202" ++ [hexDigit (c % 16)] = [0x5C, 0x75, 0x32, 0x30, 0x32, hexDigit (c % 16)] := by
      rfl
    rw [h5]
    exact read_escape_u d _ _ _ _ hs hl (by decide) (by decide) (by decide)
      (isHexDigit_hexDigit _ (Nat.mod_lt _ (by decide)))
  · refine read_all_plain _ d hs hl ?_
    intro x hx
    have := hhigh (by omega) x hx
    omega

theorem read_appendString_body (src : GoString) (d : DecodeState)
    (hs : d.scan.step = .InString) (hl : d.literal = []) :
    ((runeChunks src).flatMap appendChunk).foldl DecodeState.read d = d := by
  have hall := runeChunksFrom_high src 0
  unfold runeChunks
  generalize runeChunksFrom 0 src = chunks at hall
  induction chunks with
  | nil => rfl
  | cons ch rest ih =>
    rw [List.flatMap_cons, List.foldl_append,
      read_appendChunk d ch hs hl (hall ch (List.mem_cons_self _ _))]
    exact ih (fun x hx => hall x (List.mem_cons_of_mem _ hx))

theorem foldl_read_scan (data : GoString) (d : DecodeState) :
    (data.foldl DecodeState.read d).scan = data.foldl Scanner.scan d.scan := by
  induction data generalizing d with
  | nil => rfl
  | cons c rest ih =>
    rw [List.foldl_cons, List.foldl_cons, ih]
    congr 1
    unfold DecodeState.read
    split_ifs <;> rfl

theorem checkValid_of_jsonUnmarshalOk (data : GoString) (hok : jsonUnmarshalOk data = true) :
    checkValid data = true := by
  unfold jsonUnmarshalOk at hok
  rw [Bool.and_eq_true] at hok
  have hscan : (data.foldl DecodeState.read DecodeState.init).scan =
      data.foldl Scanner.scan Scanner.reset := foldl_read_scan data DecodeState.init
  unfold checkValid
  rw [← hscan]
  exact hok.1

/-! ## Lemmas on the encoded responses -/

theorem jsonMarshal_toolResponse (text : GoString) :
    jsonMarshal (toolResponse text) =
      str "\x7b\"content\":[\x7b\"text\":" ++ appendString text ++ str ",\"type\":\"text\"\x7d]\x7d" := by
  have hsort : (toolResponse text).sortKeys =
      .object (.cons (str "content")
        (.array (.cons
          (.object (.cons (str "text") (.string text)
            (.cons (str "type") (.string (str "text")) .nil)))
          .nil))
        .nil) := rfl
  rw [jsonMarshal, hsort]
  simp only [JValue.encode, JItems.encodeRest, JFields.encodeRest]
  generalize appendString text = quoted
  simp only [List.append_assoc]
  rfl

theorem jsonUnmarshalOk_toolResponse (text : GoString) :
    jsonUnmarshalOk (jsonMarshal (toolResponse text)) = true := by
  have hpre : (str "\x7b\"content\":[\x7b\"text\":" ++ [0x22]).foldl DecodeState.read DecodeState.init =
      { scan := { step := .InString, parseState := [.ObjectValue, .ArrayValue, .ObjectValue],
                  err := false, endTop := false },
        literal := [], savedError := false } := by
    decide
  have hsplit : jsonMarshal (toolResponse text) =
      (str "\x7b\"content\":[\x7b\"text\":" ++ [0x22]) ++
        ((runeChunks text).flatMap appendChunk ++
          ([0x22] ++ str ",\"type\":\"text\"\x7d]\x7d")) := by
    rw [jsonMarshal_toolResponse]
    simp [appendString, List.append_assoc]
  unfold jsonUnmarshalOk
  rw [hsplit, List.foldl_append, List.foldl_append, hpre, read_appendString_body _ _ rfl rfl]
  decide

theorem jsonMarshal_resourceResponse (resourceInfo : ResourceInfo) (content : GoString) :
    jsonMarshal (resourceResponse resourceInfo content) =
      str "\x7b\"contents\":[\x7b\"mime_type\":" ++ appendString resourceInfo.MimeType ++
        str ",\"text\":" ++ appendString content ++
        str ",\"uri\":" ++ appendString (str "file://" ++ resourceInfo.FilePath) ++
        str "\x7d]\x7d" := by
  have hsort : (resourceResponse resourceInfo content).sortKeys =
      .object (.cons (str "contents")
        (.array (.cons
          (.object (.cons (str "mime_type") (.string resourceInfo.MimeType)
            (.cons (str "text") (.string content)
              (.cons (str "uri") (.string (str "file://" ++ resourceInfo.FilePath)) .nil))))
          .nil))
        .nil) := rfl
  rw [jsonMarshal, hsort]
  simp only [JValue.encode, JItems.encodeRest, JFields.encodeRest]
  generalize appendString resourceInfo.MimeType = q1
  generalize appendString content = q2
  generalize appendString (str "file://" ++ resourceInfo.FilePath) = q3
  simp only [List.append_assoc]
  rfl

set_option maxRecDepth 8000 in
theorem jsonUnmarshalOk_resourceResponse (resourceInfo : ResourceInfo) (content : GoString) :
    jsonUnmarshalOk (jsonMarshal (resourceResponse resourceInfo content)) = true := by
  obtain ⟨p1, hp1⟩ : ∃ p, p = str "\x7b\"contents\":[\x7b\"mime_type\":" ++ [0x22] := ⟨_, rfl⟩
  obtain ⟨p2, hp2⟩ : ∃ p, p = [0x22] ++ str ",\"text\":" ++ [0x22] := ⟨_, rfl⟩
  obtain ⟨p3, hp3⟩ : ∃ p, p = [0x22] ++ str ",\"uri\":" ++ [0x22] := ⟨_, rfl⟩
  obtain ⟨p4, hp4⟩ : ∃ p, p = [0x22] ++ str "\x7d]\x7d" := ⟨_, rfl⟩
  obtain ⟨d, hd⟩ : ∃ d : DecodeState, d =
      { scan := { step := .InString, parseState := [.ObjectValue, .ArrayValue, .ObjectValue],
                  err := false, endTop := false },
        literal := [], savedError := false } := ⟨_, rfl⟩
  have hs : d.scan.step = .InString := by rw [hd]
  have hl : d.literal = [] := by rw [hd]
  have h1 : p1.foldl DecodeState.read DecodeState.init = d := by
    subst hp1 hd; decide
  have h2 : p2.foldl DecodeState.read d = d := by
    subst hp2 hd; decide
  have h3 : p3.foldl DecodeState.read d = d := by
    subst hp3 hd; decide
  have h4 : (p4.foldl DecodeState.read d).scan.eof = true ∧
      ((p4.foldl DecodeState.read d).read 0x20).savedError = false := by
    subst hp4 hd; decide
  have hsplit : jsonMarshal (resourceResponse resourceInfo content) =
      p1 ++ ((runeChunks resourceInfo.MimeType).flatMap appendChunk ++
        (p2 ++ ((runeChunks content).flatMap appendChunk ++
          (p3 ++ ((runeChunks (str "file://" ++ resourceInfo.FilePath)).flatMap appendChunk ++
            p4))))) := by
    rw [jsonMarshal_resourceResponse, hp1, hp2, hp3, hp4]
    simp [appendString, List.append_assoc]
  unfold jsonUnmarshalOk
  rw [hsplit]
  simp only [List.foldl_append]
  rw [h1, read_appendString_body _ _ hs hl, h2, read_appendString_body _ _ hs hl, h3,
    read_appendString_body _ _ hs hl, h4.1, h4.2]
  rfl

/-! ## Claims on the handlers -/

/-- C7: `validateAndFormatOutput` returns no error and a document that
`checkValid` and `json.Unmarshal` accept, for every byte sequence: a non-empty
output that parses as JSON comes back unchanged; any other output, the empty one
included, comes back as the encoding of `{content: [{type: "text", text: t}]}`
with `t` the output trimmed by `strings.TrimSpace`.  The three outputs of the
test file and one output with white space around it are evaluated. -/
theorem validateAndFormatOutput_wellformed (h : Host) (out : GoString) :
    ∃ result, validateAndFormatOutput h out = .ok result ∧
      checkValid result = true ∧
      jsonUnmarshalOk result = true ∧
      result = (if out ≠ [] ∧ jsonUnmarshalOk out = true then out
                else jsonMarshal (toolResponse (TrimSpace out))) ∧
      jsonMarshal (toolResponse (TrimSpace out)) =
        str "\x7b\"content\":[\x7b\"text\":" ++ appendString (TrimSpace out) ++
          str ",\"type\":\"text\"\x7d]\x7d" ∧
      validateAndFormatOutput h (str "\x7b\"result\": \"success\"\x7d") =
        .ok (str "\x7b\"result\": \"success\"\x7d") ∧
      validateAndFormatOutput h (str "Hello, World!") =
        .ok (str "\x7b\"content\":[\x7b\"text\":\"Hello, World!\",\"type\":\"text\"\x7d]\x7d") ∧
      validateAndFormatOutput h [] =
        .ok (str "\x7b\"content\":[\x7b\"text\":\"\",\"type\":\"text\"\x7d]\x7d") ∧
      validateAndFormatOutput h (str " \t42 apples\r\n") =
        .ok (str "\x7b\"content\":[\x7b\"text\":\"42 apples\",\"type\":\"text\"\x7d]\x7d") := by
  by_cases hv : out ≠ [] ∧ jsonUnmarshalOk out = true
  · refine ⟨out, ?_, checkValid_of_jsonUnmarshalOk _ hv.2, hv.2, by rw [if_pos hv],
      jsonMarshal_toolResponse _, rfl, rfl, rfl, rfl⟩
    have hlen : ¬ out.length = 0 := by simpa using hv.1
    simp [validateAndFormatOutput, ValidateOutput, jsonUnmarshal, hlen, hv.2]
  · refine ⟨jsonMarshal (toolResponse (TrimSpace out)), ?_,
      checkValid_of_jsonUnmarshalOk _ (jsonUnmarshalOk_toolResponse _),
      jsonUnmarshalOk_toolResponse _, by rw [if_neg hv], jsonMarshal_toolResponse _,
      rfl, rfl, rfl, rfl⟩
    unfold validateAndFormatOutput ValidateOutput jsonUnmarshal
    by_cases hlen : out.length = 0
    · simp [hlen]
    · have hne : out ≠ [] := by simpa using hlen
      have hbad : jsonUnmarshalOk out = false := by
        cases hok : jsonUnmarshalOk out with
        | true => exact absurd ⟨hne, hok⟩ hv
        | false => rfl
      simp [hlen, hbad]

/-- C8: `ValidateInput` returns an error exactly when the input is empty (nil or
of length zero) or `json.Unmarshal` into an empty interface rejects it, and
`ValidateOutput` returns an error on exactly the same inputs.  The inputs of the
test file are evaluated. -/
theorem ValidateInput_error_iff (h : Host) (b : GoString) :
    (ValidateInput h b ≠ none ↔ (b = [] ∨ jsonUnmarshalOk b = false)) ∧
    (ValidateOutput h b ≠ none ↔ ValidateInput h b ≠ none) ∧
    ValidateInput h (str "\x7b\"key\": \"value\"\x7d") = none ∧
    ValidateInput h (str "\x7b\"key\": \"value\"") ≠ none ∧
    ValidateInput h [] ≠ none ∧
    ValidateOutput h (str "\x7b\"result\": \"success\"\x7d") = none ∧
    ValidateOutput h (str "\x7b\"result\": \"success\"") ≠ none ∧
    ValidateOutput h [] ≠ none := by
  have key : ∀ (h : Host) (b : GoString),
      (ValidateInput h b ≠ none ↔ (b = [] ∨ jsonUnmarshalOk b = false)) ∧
      (ValidateOutput h b ≠ none ↔ (b = [] ∨ jsonUnmarshalOk b = false)) := by
    intro h b
    unfold ValidateInput ValidateOutput jsonUnmarshal
    by_cases hlen : b.length = 0
    · have hb : b = [] := by simpa using hlen
      simp [hb]
    · have hb : b ≠ [] := by simpa using hlen
      cases hok : jsonUnmarshalOk b <;> simp [hlen, hb]
  refine ⟨(key h b).1, ?_, ?_, ?_, ?_, ?_, ?_, ?_⟩
  · rw [(key h b).1, (key h b).2]
  · rfl
  · rw [(key h _).1]; right; decide
  · rw [(key h _).1]; left; rfl
  · rfl
  · rw [(key h _).2]; right; decide
  · rw [(key h _).2]; left; rfl

set_option maxRecDepth 100000 in
theorem AccessResource_notes (input : GoString) (hin : input = str "\x7b\x7d") :
    AccessResource notesHost notesInfo input =
      .ok (str ("\x7b\"contents\":[\x7b\"mime_type\":\"text/markdown\",\"text\":\"# Notes\\n\"," ++
        "\"uri\":\"file://resources/notes.md\"\x7d]\x7d")) := by
  subst hin
  rfl

set_option maxRecDepth 100000 in
theorem specResourceResponse_notes :
    jsonMarshal (specResourceResponse notesInfo (str "# Notes\n")) =
      str ("\x7b\"contents\":[\x7b\"mimeType\":\"text/markdown\",\"text\":\"# Notes\\n\"," ++
        "\"uri\":\"file://resources/notes.md\"\x7d]\x7d") := by
  rfl

/-- C9 as stated fails on the key of the MIME type: for `resources/notes.md` the
entry `AccessResource` returns carries the key `mime_type`; it has no field
`mimeType`, and the document differs from the envelope of the specification. -/
theorem AccessResource_key_is_not_mimeType :
    AccessResource notesHost notesInfo (str "\x7b\x7d") =
      .ok (str ("\x7b\"contents\":[\x7b\"mime_type\":\"text/markdown\",\"text\":\"# Notes\\n\"," ++
        "\"uri\":\"file://resources/notes.md\"\x7d]\x7d")) ∧
    AccessResource notesHost notesInfo (str "\x7b\x7d") ≠
      .ok (jsonMarshal (specResourceResponse notesInfo (str "# Notes\n"))) ∧
    (resourceEntry notesInfo (str "# Notes\n")).lookup (str "mimeType") = none ∧
    (resourceEntry notesInfo (str "# Notes\n")).lookup (str "mime_type") =
      some (.string (str "text/markdown")) := by
  refine ⟨AccessResource_notes _ rfl, ?_, rfl, rfl⟩
  rw [AccessResource_notes _ rfl, specResourceResponse_notes]
  intro heq
  have hbytes := congrArg List.length (Except.ok.inj heq)
  revert hbytes
  decide

/-- C9, amended: for a descriptor whose file can be read and a valid input,
`AccessResource` returns the encoding of the map with the single key `contents`
holding one entry with the fields `uri` (`file://` followed by the path),
`mime_type` (the MIME type of the descriptor) and `text` (the file content); the
encoder writes the keys in byte order, and `json.Unmarshal` accepts the
document. -/
theorem AccessResource_envelope (h : Host) (resourceInfo : ResourceInfo)
    (input content : GoString) (hin : ValidateInput h input = none)
    (hread : h.ReadFile resourceInfo.FilePath = .ok content) :
    AccessResource h resourceInfo input =
      .ok (jsonMarshal
        (.object (.cons (str "contents")
          (.array (.cons
            (.object
              (.cons (str "uri") (.string (str "file://" ++ resourceInfo.FilePath))
                (.cons (str "mime_type") (.string resourceInfo.MimeType)
                  (.cons (str "text") (.string content) .nil))))
            .nil))
          .nil))) ∧
    AccessResource h resourceInfo input =
      .ok (str "\x7b\"contents\":[\x7b\"mime_type\":" ++ appendString resourceInfo.MimeType ++
        str ",\"text\":" ++ appendString content ++
        str ",\"uri\":" ++ appendString (str "file://" ++ resourceInfo.FilePath) ++
        str "\x7d]\x7d") ∧
    ∃ result, AccessResource h resourceInfo input = .ok result ∧
      jsonUnmarshalOk result = true := by
  have hres : AccessResource h resourceInfo input =
      .ok (jsonMarshal (resourceResponse resourceInfo content)) := by
    simp [AccessResource, hin, hread]
  refine ⟨hres, ?_, ⟨_, hres, jsonUnmarshalOk_resourceResponse _ _⟩⟩
  rw [hres, jsonMarshal_resourceResponse]

/-- Witness for C9: reading `resources/notes.md` on `notesHost` with the input
`{}`. -/
theorem AccessResource_envelope_witness :
    ValidateInput notesHost (str "\x7b\x7d") = none ∧
    notesHost.ReadFile notesInfo.FilePath = .ok (str "# Notes\n") ∧
    ∃ result, AccessResource notesHost notesInfo (str "\x7b\x7d") = .ok result ∧
      jsonUnmarshalOk result = true :=
  ⟨by decide, by rfl,
   (AccessResource_envelope notesHost notesInfo (str "\x7b\x7d") (str "# Notes\n") (by decide)
      (by rfl)).2.2⟩

/-! ## Lemmas on paths -/

theorem extLoop_append_slash (a b acc : GoString) :
    extLoop (a ++ 0x2F :: b) acc = extLoop a acc := by
  induction a generalizing acc with
  | nil => simp [extLoop]
  | cons c rest ih =>
    simp only [List.cons_append, extLoop]
    split_ifs
    · rfl
    · rfl
    · exact ih _

theorem Ext_dir_file (dir file : GoString) : Ext (dir ++ [0x2F] ++ file) = Ext file := by
  unfold Ext
  have hrev : (dir ++ [0x2F] ++ file).reverse = file.reverse ++ 0x2F :: dir.reverse := by
    simp
  rw [hrev]
  exact extLoop_append_slash _ _ _

theorem takeWhile_append_stop (p : Nat → Bool) (a b : GoString) (c : Nat)
    (ha : ∀ x ∈ a, p x = true) (hc : p c = false) :
    (a ++ c :: b).takeWhile p = a := by
  induction a with
  | nil => simp [List.takeWhile, hc]
  | cons x rest ih =>
    have hx := ha x (List.mem_cons_self _ _)
    rw [List.cons_append, List.takeWhile_cons, hx]
    simp only [if_true]
    rw [ih (fun y hy => ha y (List.mem_cons_of_mem _ hy))]

theorem Base_dir_file (dir file : GoString) (hne : file ≠ []) (hslash : 0x2F ∉ file) :
    Base (dir ++ [0x2F] ++ file) = file := by
  have hrev : (dir ++ [0x2F] ++ file).reverse = file.reverse ++ 0x2F :: dir.reverse := by
    simp
  obtain ⟨x, rest, hx⟩ : ∃ x rest, file.reverse = x :: rest := by
    cases hfr : file.reverse with
    | nil => exact absurd (List.reverse_eq_nil_iff.mp hfr) hne
    | cons x rest => exact ⟨x, rest, rfl⟩
  have hxs : x ≠ 0x2F := by
    intro hxe
    apply hslash
    have : x ∈ file.reverse := by rw [hx]; exact List.mem_cons_self _ _
    rw [← hxe]
    exact List.mem_reverse.mp this
  have hall : ∀ y ∈ file.reverse, (fun c => decide (c ≠ 0x2F)) y = true := by
    intro y hy
    have hyf := List.mem_reverse.mp hy
    simp only [decide_eq_true_eq]
    intro hye
    exact hslash (hye ▸ hyf)
  unfold Base
  have hpath : dir ++ [0x2F] ++ file ≠ [] := by simp
  rw [if_neg hpath]
  simp only [hrev]
  have hdrop : (file.reverse ++ 0x2F :: dir.reverse).dropWhile (fun c => decide (c = 0x2F)) =
      file.reverse ++ 0x2F :: dir.reverse := by
    rw [hx]
    simp [List.dropWhile, hxs]
  rw [hdrop, takeWhile_append_stop _ _ _ _ hall (by simp)]
  simp [hne]

theorem HasPrefix_append (dir rest : GoString) : HasPrefix (dir ++ rest) dir = true := by
  unfold HasPrefix
  induction dir with
  | nil => simp [List.isPrefixOf]
  | cons c tl ih => simp [List.isPrefixOf, ih]

theorem HasPrefix_dot (file : GoString) :
    HasPrefix file (str ".") = true ↔ file.head? = some 0x2E := by
  have hs : str "." = [0x2E] := by decide
  rw [hs]
  unfold HasPrefix
  cases file with
  | nil => simp [List.isPrefixOf]
  | cons c tl =>
    simp only [List.isPrefixOf, List.head?_cons, Option.some.injEq, Bool.and_true,
      beq_iff_eq]
    exact eq_comm

/-! ## Claims on plugins and on the watcher -/

theorem RegisterTool_go_plugin (h : Host) (r : Registry) (name filePath description : GoString)
    (plug : Plugin) (s : Symbol) (hso : lowerExt h filePath = str ".so")
    (hopen : h.pluginOpen filePath = .ok plug) (hlook : plug.Lookup (str "Execute") = .ok s) :
    RegisterTool h r name filePath description =
      ({ r with
          tools := r.tools.insert name
            { Name := name, Description := description, FilePath := filePath,
              Type_ := .GoPluginTool, InputSchema := generateInputSchema .GoPluginTool,
              Handler := some (.symbol s) } }, none) := by
  have ht : determineToolType h filePath = .GoPluginTool := by
    simp [determineToolType, hso]
  simp [RegisterTool, ht, loadToolHandler, loadGoPlugin, hopen, hlook]

/-- C11 as stated fails: the plugin at `tools/bad.so` opens and exports `Execute`
with another signature, yet `RegisterTool` returns no error and the tool is in the
catalog afterwards. -/
theorem RegisterTool_accepts_mistyped_Execute :
    lowerExt pluginHost (str "tools/bad.so") = str ".so" ∧
    pluginHost.pluginOpen (str "tools/bad.so") = .ok mistypedPlugin ∧
    mistypedPlugin.Lookup (str "Execute") = .ok { id := 1, isExecuteFunc := false } ∧
    (RegisterTool pluginHost NewRegistry (str "bad") (str "tools/bad.so")
      (str "MCP tool: bad")).2 = none ∧
    (GetTool (RegisterTool pluginHost NewRegistry (str "bad") (str "tools/bad.so")
      (str "MCP tool: bad")).1 (str "bad")).isSome = true ∧
    GetToolCount (RegisterTool pluginHost NewRegistry (str "bad") (str "tools/bad.so")
      (str "MCP tool: bad")).1 = 1 := by
  refine ⟨by decide, rfl, rfl, rfl, rfl, ?_⟩
  decide

/-- C11, amended: for a `.so` tool whose module opens and exports `Execute` with
a signature other than `func([]byte) ([]byte, error)`, `RegisterTool` returns no
error and stores the descriptor with the exported value as handle; the mismatch
is detected at execution time, where `ExecuteTool` on the stored descriptor and a
valid input returns the error "invalid Execute function signature for tool"
followed by the name. -/
theorem RegisterTool_mistyped_Execute_fails_at_execution (h : Host) (x : ExecHost)
    (r : Registry) (name filePath description input : GoString) (plug : Plugin) (s : Symbol)
    (hso : lowerExt h filePath = str ".so") (hopen : h.pluginOpen filePath = .ok plug)
    (hlook : plug.Lookup (str "Execute") = .ok s) (hsig : s.isExecuteFunc = false)
    (hin : ValidateInput h input = none) :
    (RegisterTool h r name filePath description).2 = none ∧
    ∃ t, GetTool (RegisterTool h r name filePath description).1 name = some t ∧
      t.Type_ = .GoPluginTool ∧ t.Handler = some (.symbol s) ∧
      ExecuteTool h x t input =
        .error (str "invalid Execute function signature for tool " ++ name) := by
  rw [RegisterTool_go_plugin h r name filePath description plug s hso hopen hlook]
  refine ⟨rfl,
    { Name := name, Description := description, FilePath := filePath,
      Type_ := .GoPluginTool, InputSchema := generateInputSchema .GoPluginTool,
      Handler := some (.symbol s) }, by simp [GetTool], rfl, rfl, ?_⟩
  simp [ExecuteTool, hin, executeGoPlugin, hsig]

/-- Witness for C11: the plugin at `tools/bad.so` on `pluginHost`, executed with
the input `{}`. -/
theorem RegisterTool_mistyped_Execute_fails_at_execution_witness :
    (RegisterTool pluginHost NewRegistry (str "bad") (str "tools/bad.so")
      (str "MCP tool: bad")).2 = none ∧
    ∃ t, GetTool (RegisterTool pluginHost NewRegistry (str "bad") (str "tools/bad.so")
        (str "MCP tool: bad")).1 (str "bad") = some t ∧
      t.Type_ = .GoPluginTool ∧
      t.Handler = some (.symbol { id := 1, isExecuteFunc := false }) ∧
      ExecuteTool pluginHost sampleExecHost t (str "\x7b\x7d") =
        .error (str "invalid Execute function signature for tool " ++ str "bad") :=
  RegisterTool_mistyped_Execute_fails_at_execution pluginHost sampleExecHost NewRegistry
    (str "bad") (str "tools/bad.so") (str "MCP tool: bad") (str "\x7b\x7d") mistypedPlugin
    { id := 1, isExecuteFunc := false } (by decide) rfl rfl rfl (by decide)

theorem handleEvent_hidden (h : Host) (w : Watcher) (event : Event)
    (hdot : HasPrefix (Base event.Name) (str ".") = true) : handleEvent h w event = w := by
  simp [handleEvent, hdot]

/-- C12 fails on the code: `scanDirectory` has no test for a leading dot.  On
a `resources` directory listing `.notes.md` and `notes.md` it registers two
descriptors, one of them under the name `.notes` for the dot-prefixed file, while
`handleEvent` ignores a create event for the same file. -/
theorem scanDirectory_registers_dot_file :
    sampleWatchHost.ReadDir (str "resources") =
      .ok [{ Name := str ".notes.md", IsDir := false },
           { Name := str "notes.md", IsDir := false }] ∧
    (scanDirectory sampleHost sampleWatchHost NewRegistry (str "resources")
      (str "resource")).2 = none ∧
    GetResource (scanDirectory sampleHost sampleWatchHost NewRegistry (str "resources")
        (str "resource")).1 (str ".notes") =
      some { Name := str ".notes", FilePath := str "resources/.notes.md",
             Type_ := .FileResource, MimeType := str "text/markdown" } ∧
    GetResourceCount (scanDirectory sampleHost sampleWatchHost NewRegistry (str "resources")
      (str "resource")).1 = 2 ∧
    (handleEvent sampleHost sampleWatcher
      { Name := str "resources/.notes.md", Op := Op.Create }).registry = NewRegistry := by
  refine ⟨rfl, rfl, by decide, by decide, ?_⟩
  rw [handleEvent_hidden _ _ _ (by decide)]
  rfl

theorem Unregister_frame_lemma (r : Registry) (name : GoString) :
    GetResource (UnregisterResource r name) name = none ∧
    GetTool (UnregisterTool r name) name = none := by
  unfold UnregisterResource UnregisterTool GetResource GetTool
  constructor
  · split_ifs with hp
    · exact Finmap.lookup_erase _ _
    · simpa using hp
  · split_ifs with hp
    · exact Finmap.lookup_erase _ _
    · simpa using hp

theorem handleEvent_resource_event (h : Host) (w : Watcher) (event : Event)
    (hop : event.Op = Op.Create ∨ event.Op = Op.Write)
    (hdot : HasPrefix (Base event.Name) (str ".") = false)
    (hres : HasPrefix event.Name w.resourcesDir = true) :
    handleEvent h w event =
      { w with registry :=
          (RegisterResource h w.registry (TrimSuffix (Base event.Name) (Ext event.Name))
            event.Name).1 } := by
  simp [handleEvent, hdot, hres, hop]

/-- Registration by an event whose path starts with the string of the resources
directory: a create or write event for a file that is not hidden and whose path
starts with that string makes `GetResource` of the derived name return the
descriptor with the event path and the MIME type of the classifier.  For a path
made of that string, a separator and a file name, the derived name is the file
name without its extension; on `sampleWatcher` a create event for
`resources/notes.md` gives `notes` the MIME type `text/markdown`.  A path of the
resources directory spelled otherwise than the configured string is not
covered. -/
theorem handleEvent_create_write_registers (h : Host) (w : Watcher) :
    (∀ event : Event, (event.Op = Op.Create ∨ event.Op = Op.Write) →
      HasPrefix (Base event.Name) (str ".") = false →
      HasPrefix event.Name w.resourcesDir = true →
      GetResource (handleEvent h w event).registry
          (TrimSuffix (Base event.Name) (Ext event.Name)) =
        some { Name := TrimSuffix (Base event.Name) (Ext event.Name), FilePath := event.Name,
               Type_ := determineResourceType h event.Name,
               MimeType := determineMimeType h event.Name }) ∧
    (∀ (file : GoString) (op : Op), (op = Op.Create ∨ op = Op.Write) →
      file ≠ [] → 0x2F ∉ file → file.head? ≠ some 0x2E →
      GetResource (handleEvent h w { Name := w.resourcesDir ++ [0x2F] ++ file, Op := op }).registry
          (TrimSuffix file (Ext file)) =
        some { Name := TrimSuffix file (Ext file), FilePath := w.resourcesDir ++ [0x2F] ++ file,
               Type_ := determineResourceType h (w.resourcesDir ++ [0x2F] ++ file),
               MimeType := determineMimeType h (w.resourcesDir ++ [0x2F] ++ file) }) ∧
    GetResource (handleEvent h sampleWatcher
        { Name := str "resources/notes.md", Op := Op.Create }).registry (str "notes") =
      some { Name := str "notes", FilePath := str "resources/notes.md",
             Type_ := .FileResource, MimeType := str "text/markdown" } := by
  have hgen : ∀ event : Event, (event.Op = Op.Create ∨ event.Op = Op.Write) →
      HasPrefix (Base event.Name) (str ".") = false →
      HasPrefix event.Name w.resourcesDir = true →
      GetResource (handleEvent h w event).registry
          (TrimSuffix (Base event.Name) (Ext event.Name)) =
        some { Name := TrimSuffix (Base event.Name) (Ext event.Name), FilePath := event.Name,
               Type_ := determineResourceType h event.Name,
               MimeType := determineMimeType h event.Name } := by
    intro event hop hdot hres
    rw [handleEvent_resource_event h w event hop hdot hres]
    simp [GetResource, RegisterResource]
  refine ⟨hgen, ?_, rfl⟩
  intro file op hop hne hslash hhead
  have hbase := Base_dir_file w.resourcesDir file hne hslash
  have hext := Ext_dir_file w.resourcesDir file
  have hdot : HasPrefix (Base (w.resourcesDir ++ [0x2F] ++ file)) (str ".") = false := by
    rw [hbase]
    cases hp : HasPrefix file (str ".") with
    | false => rfl
    | true => exact absurd ((HasPrefix_dot file).mp hp) hhead
  have hres : HasPrefix (w.resourcesDir ++ [0x2F] ++ file) w.resourcesDir = true := by
    rw [List.append_assoc]
    exact HasPrefix_append _ _
  have := hgen { Name := w.resourcesDir ++ [0x2F] ++ file, Op := op } hop hdot hres
  simp only [hbase, hext] at this
  exact this

/-- An instance of the registration lemma: a write event for `resources/notes.md`
on `sampleWatcher`. -/
theorem handleEvent_create_write_registers_witness :
    (Op.Write = Op.Create ∨ Op.Write = Op.Write) ∧ str "notes.md" ≠ [] ∧
    0x2F ∉ str "notes.md" ∧ (str "notes.md").head? ≠ some 0x2E ∧
    GetResource (handleEvent sampleHost sampleWatcher
        { Name := sampleWatcher.resourcesDir ++ [0x2F] ++ str "notes.md",
          Op := Op.Write }).registry
        (TrimSuffix (str "notes.md") (Ext (str "notes.md"))) =
      some { Name := TrimSuffix (str "notes.md") (Ext (str "notes.md")),
             FilePath := sampleWatcher.resourcesDir ++ [0x2F] ++ str "notes.md",
             Type_ := determineResourceType sampleHost
               (sampleWatcher.resourcesDir ++ [0x2F] ++ str "notes.md"),
             MimeType := determineMimeType sampleHost
               (sampleWatcher.resourcesDir ++ [0x2F] ++ str "notes.md") } :=
  ⟨by decide, by decide, by decide, by decide,
   (handleEvent_create_write_registers sampleHost sampleWatcher).2.1 (str "notes.md") Op.Write
     (by decide) (by decide) (by decide) (by decide)⟩

/-- C14, amended: for every watcher state and path, `handleEvent` on a rename
event gives the same state as on a remove event; when the base name of the path
does not start with a dot, the derived name is in both cases absent from the
resources if the path starts with the string of the resources directory, and
absent from the tools if the path starts with the string of the tools directory
and not with that of the resources directory. -/
theorem handleEvent_rename_as_remove (h : Host) (w : Watcher) (path : GoString) :
    handleEvent h w { Name := path, Op := Op.Rename } =
      handleEvent h w { Name := path, Op := Op.Remove } ∧
    (HasPrefix (Base path) (str ".") = false → HasPrefix path w.resourcesDir = true →
      GetResource (handleEvent h w { Name := path, Op := Op.Rename }).registry
          (TrimSuffix (Base path) (Ext path)) = none ∧
      GetResource (handleEvent h w { Name := path, Op := Op.Remove }).registry
          (TrimSuffix (Base path) (Ext path)) = none) ∧
    (HasPrefix (Base path) (str ".") = false → HasPrefix path w.resourcesDir = false →
      HasPrefix path w.toolsDir = true →
      GetTool (handleEvent h w { Name := path, Op := Op.Rename }).registry
          (TrimSuffix (Base path) (Ext path)) = none ∧
      GetTool (handleEvent h w { Name := path, Op := Op.Remove }).registry
          (TrimSuffix (Base path) (Ext path)) = none) := by
  have heq : handleEvent h w { Name := path, Op := Op.Rename } =
      handleEvent h w { Name := path, Op := Op.Remove } := by
    simp [handleEvent, Op.Rename, Op.Remove, Op.Create, Op.Write]
  refine ⟨heq, ?_, ?_⟩
  · intro hdot hres
    rw [heq]
    have hrm : handleEvent h w { Name := path, Op := Op.Remove } =
        { w with registry :=
            UnregisterResource w.registry (TrimSuffix (Base path) (Ext path)) } := by
      simp [handleEvent, hdot, hres, Op.Remove, Op.Create, Op.Write]
    rw [hrm]
    exact ⟨(Unregister_frame_lemma w.registry _).1, (Unregister_frame_lemma w.registry _).1⟩
  · intro hdot hres htool
    rw [heq]
    have hrm : handleEvent h w { Name := path, Op := Op.Remove } =
        { w with registry := UnregisterTool w.registry (TrimSuffix (Base path) (Ext path)) } := by
      simp [handleEvent, hdot, hres, htool, Op.Remove, Op.Create, Op.Write]
    rw [hrm]
    exact ⟨(Unregister_frame_lemma w.registry _).2, (Unregister_frame_lemma w.registry _).2⟩

/-- Witness for C14, amended: a rename event for `resources/notes.md` on `notesWatcher`,
whose registry holds `notes`, leaves `notes` absent. -/
theorem handleEvent_rename_as_remove_witness :
    GetResource notesWatcher.registry (str "notes") ≠ none ∧
    HasPrefix (Base (str "resources/notes.md")) (str ".") = false ∧
    HasPrefix (str "resources/notes.md") notesWatcher.resourcesDir = true ∧
    GetResource (handleEvent sampleHost notesWatcher
        { Name := str "resources/notes.md", Op := Op.Rename }).registry
        (TrimSuffix (Base (str "resources/notes.md")) (Ext (str "resources/notes.md"))) = none :=
  ⟨by decide, by decide, by decide,
   ((handleEvent_rename_as_remove sampleHost notesWatcher (str "resources/notes.md")).2.1
      (by decide) (by decide)).1⟩

theorem Start_failure (h : Host) (fs : WatchHost) (w : Watcher)
    (herr : (Start h fs w).2 ≠ none) :
    (Start h fs w).1.isRunning = w.isRunning ∧ (Start h fs w).1.loops = w.loops := by
  unfold Start at herr ⊢
  cases h1 : ensureDirectories fs w with
  | some e => simp
  | none =>
    cases h2 : fs.Add w.resourcesDir with
    | some e => simp
    | none =>
      cases h3 : fs.Add w.toolsDir with
      | some e => simp
      | none =>
        simp only [h1, h2, h3] at herr ⊢
        unfold scanExistingFiles at herr ⊢
        cases h4 : scanDirectory h fs w.registry w.resourcesDir (str "resource") with
        | mk r1 e1 =>
          cases e1 with
          | some e => simp
          | none =>
            simp only [h4] at herr ⊢
            cases h5 : scanDirectory h fs r1 w.toolsDir (str "tool") with
            | mk r2 e2 =>
              cases e2 with
              | some e => simp
              | none => simp [h5] at herr

theorem Start_success (h : Host) (fs : WatchHost) (w : Watcher)
    (hok : (Start h fs w).2 = none) :
    (Start h fs w).1.isRunning = true ∧ (Start h fs w).1.loops = w.loops + 1 := by
  unfold Start at hok ⊢
  cases h1 : ensureDirectories fs w with
  | some e => simp [h1] at hok
  | none =>
    cases h2 : fs.Add w.resourcesDir with
    | some e => simp [h1, h2] at hok
    | none =>
      cases h3 : fs.Add w.toolsDir with
      | some e => simp [h1, h2, h3] at hok
      | none =>
        simp only [h1, h2, h3] at hok ⊢
        unfold scanExistingFiles at hok ⊢
        cases h4 : scanDirectory h fs w.registry w.resourcesDir (str "resource") with
        | mk r1 e1 =>
          cases e1 with
          | some e => simp [h4] at hok
          | none =>
            simp only [h4] at hok ⊢
            cases h5 : scanDirectory h fs r1 w.toolsDir (str "tool") with
            | mk r2 e2 =>
              cases e2 with
              | some e => simp [h5] at hok
              | none => simp

theorem Stop_result (fs : WatchHost) (w w1 : Watcher) (err : Option GoError)
    (hs : Stop fs w = some (w1, err)) : w1.isRunning = false := by
  unfold Stop at hs
  by_cases hr : w.isRunning = true
  · simp only [hr, Bool.not_true, Bool.false_eq_true, if_false] at hs
    by_cases hl : w.loops = 0
    · simp [hl] at hs
    · simp only [hl, if_false] at hs
      cases hc : fs.Close with
      | some e =>
        simp only [hc, Option.some.injEq, Prod.mk.injEq] at hs
        rw [← hs.1]
      | none =>
        simp only [hc, Option.some.injEq, Prod.mk.injEq] at hs
        rw [← hs.1]
  · have hf : w.isRunning = false := by simpa using hr
    simp only [hf, Bool.not_false, if_true, Option.some.injEq, Prod.mk.injEq] at hs
    rw [← hs.1]
    exact hf

theorem Stop_returns (fs : WatchHost) (w : Watcher) (hr : w.isRunning = true)
    (hl : 0 < w.loops) : ∃ w1 err, Stop fs w = some (w1, err) := by
  unfold Stop
  have hl0 : w.loops ≠ 0 := by omega
  simp only [hr, Bool.not_true, Bool.false_eq_true, if_false, hl0]
  cases fs.Close with
  | some e => exact ⟨_, _, rfl⟩
  | none => exact ⟨_, _, rfl⟩

/-- C15: the flag `isRunning` follows the state machine.  A new watcher is not
running; a `Start` that fails (which happens exactly when directory creation,
one of the two watch registrations or the initial scan fails) leaves the flag as
it was, so false on a watcher that is not running, and spawns no loop; a `Start`
that succeeds sets it and spawns one loop; every `Stop` that returns leaves it
false, and `Stop` returns on a running watcher with a loop to receive the
signal, in particular after a successful `Start`; `Stop` on a watcher that is not
running returns no error and the same state, so a second `Stop` changes
nothing. -/
theorem Watcher_running_flag (h : Host) (fs : WatchHost) (w : Watcher) :
    (∀ resourcesDir toolsDir registry w0,
      NewWatcher fs resourcesDir toolsDir registry = .ok w0 → IsRunning w0 = false) ∧
    ((Start h fs w).2 ≠ none ↔
      (ensureDirectories fs w ≠ none ∨ fs.Add w.resourcesDir ≠ none ∨
        fs.Add w.toolsDir ≠ none ∨ (scanExistingFiles h fs w).2 ≠ none)) ∧
    ((Start h fs w).2 ≠ none →
      IsRunning (Start h fs w).1 = IsRunning w ∧ (Start h fs w).1.loops = w.loops) ∧
    (IsRunning w = false → (Start h fs w).2 ≠ none → IsRunning (Start h fs w).1 = false) ∧
    ((Start h fs w).2 = none →
      IsRunning (Start h fs w).1 = true ∧ (Start h fs w).1.loops = w.loops + 1 ∧
      ∃ w1 err, Stop fs (Start h fs w).1 = some (w1, err) ∧ IsRunning w1 = false) ∧
    (∀ w1 err, Stop fs w = some (w1, err) →
      IsRunning w1 = false ∧ Stop fs w1 = some (w1, none)) ∧
    (IsRunning w = true → 0 < w.loops →
      ∃ w1 err, Stop fs w = some (w1, err) ∧ IsRunning w1 = false) ∧
    (IsRunning w = false → Stop fs w = some (w, none)) := by
  have hstopped : ∀ v : Watcher, v.isRunning = false → Stop fs v = some (v, none) := by
    intro v hv
    simp [Stop, hv]
  refine ⟨?_, ?_, ?_, ?_, ?_, ?_, ?_, ?_⟩
  · intro resourcesDir toolsDir registry w0 hnew
    unfold NewWatcher at hnew
    cases hn : fs.NewWatcher with
    | some e => simp [hn] at hnew
    | none =>
      simp only [hn, Except.ok.injEq] at hnew
      rw [← hnew]
      rfl
  · unfold Start
    cases h1 : ensureDirectories fs w with
    | some e => simp
    | none =>
      cases h2 : fs.Add w.resourcesDir with
      | some e => simp
      | none =>
        cases h3 : fs.Add w.toolsDir with
        | some e => simp
        | none =>
          cases h4 : scanExistingFiles h fs w with
          | mk w1 e1 => cases e1 <;> simp
  · exact Start_failure h fs w
  · intro hnot herr
    unfold IsRunning at hnot ⊢
    rw [(Start_failure h fs w herr).1, hnot]
  · intro hok
    have hs := Start_success h fs w hok
    obtain ⟨w1, err, hstop⟩ := Stop_returns fs (Start h fs w).1 hs.1 (by omega)
    exact ⟨hs.1, hs.2, w1, err, hstop, Stop_result fs _ w1 err hstop⟩
  · intro w1 err hs
    have hf := Stop_result fs w w1 err hs
    exact ⟨hf, hstopped w1 hf⟩
  · intro hr hl
    obtain ⟨w1, err, hstop⟩ := Stop_returns fs w hr hl
    exact ⟨w1, err, hstop, Stop_result fs w w1 err hstop⟩
  · exact hstopped w

/-- Witness for C15: on `sampleWatcher`, `Start` fails when no directory can be
created and succeeds on `sampleWatchHost`; `Stop` then returns and a second `Stop`
changes nothing. -/
theorem Watcher_running_flag_witness :
    IsRunning sampleWatcher = false ∧
    (Start sampleHost brokenWatchHost sampleWatcher).2 ≠ none ∧
    IsRunning (Start sampleHost brokenWatchHost sampleWatcher).1 = false ∧
    (Start sampleHost sampleWatchHost sampleWatcher).2 = none ∧
    IsRunning (Start sampleHost sampleWatchHost sampleWatcher).1 = true ∧
    (∃ w1 err, Stop sampleWatchHost (Start sampleHost sampleWatchHost sampleWatcher).1 =
        some (w1, err) ∧ IsRunning w1 = false) ∧
    Stop sampleWatchHost sampleWatcher = some (sampleWatcher, none) :=
  ⟨rfl, by decide,
   (Watcher_running_flag sampleHost brokenWatchHost sampleWatcher).2.2.2.1 rfl (by decide),
   by decide,
   ((Watcher_running_flag sampleHost sampleWatchHost sampleWatcher).2.2.2.2.1 (by decide)).1,
   ((Watcher_running_flag sampleHost sampleWatchHost sampleWatcher).2.2.2.2.1 (by decide)).2.2,
   (Watcher_running_flag sampleHost sampleWatchHost sampleWatcher).2.2.2.2.2.2.2 rfl⟩

/-! ## Claims on the export and on reachable registries -/

theorem lookup_ofList_filterMap {β : Type} (m : Finmap (fun _ : GoString => β))
    (enc : β → ExportValue) (l : List GoString) (name : GoString) :
    ExportFields.lookup name
        (ExportFields.ofList (l.filterMap (fun k => (m.lookup k).map (fun v => (k, enc v))))) =
      if name ∈ l then (m.lookup name).map enc else none := by
  induction l with
  | nil => simp [ExportFields.ofList, ExportFields.lookup]
  | cons k rest ih =>
    cases hk : m.lookup k with
    | none =>
      rw [List.filterMap_cons]
      simp only [hk, Option.map_none', ih]
      by_cases hn : name = k
      · subst hn
        simp [hk]
      · simp [hn]
    | some v =>
      rw [List.filterMap_cons]
      simp only [hk, Option.map_some', ExportFields.ofList, ExportFields.lookup, ih]
      by_cases hn : k = name
      · subst hn
        simp [hk]
      · have hn2 : ¬ name = k := fun e => hn e.symm
        simp [hn, hn2]

theorem lookup_exportMap {β : Type} (m : Finmap (fun _ : GoString => β))
    (enc : β → ExportValue) (name : GoString) :
    (exportMap m enc).lookup name = (m.lookup name).map enc := by
  unfold exportMap
  rw [lookup_ofList_filterMap]
  by_cases hmem : name ∈ m
  · rw [if_pos]
    rw [Finset.mem_sort]
    exact Finmap.mem_keys.mpr hmem
  · rw [if_neg]
    · rw [Finmap.lookup_eq_none.mpr hmem]
      rfl
    · rw [Finset.mem_sort]
      exact fun hk => hmem (Finmap.mem_keys.mp hk)

set_option maxRecDepth 100000 in
theorem ExportRegistry_empty :
    ExportRegistry NewRegistry =
      .ok (str ("\x7b\n  \"counts\": \x7b\n    \"resources\": 0,\n    \"tools\": 0\n  \x7d,\n" ++
        "  \"resources\": \x7b\x7d,\n  \"tools\": \x7b\x7d\n\x7d")) := by
  have hempty : ∀ {β : Type} (enc : β → ExportValue),
      exportMap (∅ : Finmap (fun _ : GoString => β)) enc = .nil := by
    intro β enc
    simp [exportMap, Finmap.keys_empty, ExportFields.ofList]
  have hdoc : exportDocument NewRegistry =
      .object (.cons (str "counts")
          (.object (.cons (str "resources") (.int 0) (.cons (str "tools") (.int 0) .nil)))
        (.cons (str "resources") (.object .nil) (.cons (str "tools") (.object .nil) .nil))) := by
    have h0 : exportDocument NewRegistry =
        .object (.cons (str "counts")
            (.object (.cons (str "resources") (.int NewRegistry.resources.keys.card)
              (.cons (str "tools") (.int NewRegistry.tools.keys.card) .nil)))
          (.cons (str "resources") (.object (exportMap NewRegistry.resources resourceRecord))
            (.cons (str "tools") (.object (exportMap NewRegistry.tools toolRecord)) .nil))) :=
      rfl
    rw [h0]
    simp only [NewRegistry, hempty, Finmap.keys_empty, Finset.card_empty]
  unfold ExportRegistry
  rw [hdoc]
  rfl

/-- C16: `ExportRegistry` returns no error and the indented encoding of a map
with exactly the keys `counts`, `resources` and `tools`; `resources` and `tools`
hold under each registered name, and under no other, the descriptor stored for
it; a tool descriptor is written with the fields `name`, `description`,
`file_path`, `type` and `input_schema` only, its handle left out; and the two
counts are `GetResourceCount` and `GetToolCount`. -/
theorem ExportRegistry_document (r : Registry) :
    ExportRegistry r = .ok ((exportDocument r).encodeIndent 0) ∧
    exportDocument r =
      .object (.cons (str "counts")
          (.object (.cons (str "resources") (.int (GetResourceCount r))
            (.cons (str "tools") (.int (GetToolCount r)) .nil)))
        (.cons (str "resources") (.object (exportMap r.resources resourceRecord))
          (.cons (str "tools") (.object (exportMap r.tools toolRecord)) .nil))) ∧
    (∀ name, (exportMap r.resources resourceRecord).lookup name =
      (GetResource r name).map resourceRecord) ∧
    (∀ name, (exportMap r.tools toolRecord).lookup name = (GetTool r name).map toolRecord) ∧
    (∀ info : ResourceInfo, ∃ fields, resourceRecord info = .object fields ∧
      fields.keys = [str "name", str "file_path", str "type", str "mime_type"]) ∧
    (∀ info : ToolInfo, ∃ fields, toolRecord info = .object fields ∧
      fields.keys = [str "name", str "description", str "file_path", str "type",
        str "input_schema"] ∧
      fields.lookup (str "name") = some (.string info.Name) ∧
      fields.lookup (str "description") = some (.string info.Description) ∧
      fields.lookup (str "file_path") = some (.string info.FilePath) ∧
      fields.lookup (str "type") = some (.string info.Type_.value) ∧
      fields.lookup (str "input_schema") = some (.schema info.InputSchema)) ∧
    ExportRegistry NewRegistry =
      .ok (str ("\x7b\n  \"counts\": \x7b\n    \"resources\": 0,\n    \"tools\": 0\n  \x7d,\n" ++
        "  \"resources\": \x7b\x7d,\n  \"tools\": \x7b\x7d\n\x7d")) := by
  refine ⟨rfl, rfl, fun name => lookup_exportMap _ _ name, fun name => lookup_exportMap _ _ name,
    fun info => ⟨_, rfl, rfl⟩, fun info => ⟨_, rfl, rfl, rfl, rfl, rfl, rfl, rfl⟩,
    ExportRegistry_empty⟩

theorem handleEvent_outside (h : Host) (w : Watcher) (event : Event)
    (hres : HasPrefix event.Name w.resourcesDir = false)
    (htool : HasPrefix event.Name w.toolsDir = false) : handleEvent h w event = w := by
  unfold handleEvent
  split_ifs <;> simp_all

/-- C19 fails on the code for a sibling directory: with the resources directory
`resources` and the tools directory `tools`, a create event for
`resources2/x.md`, a file in neither directory, registers the resource `x`,
because membership is tested with `strings.HasPrefix` on the directory string. -/
theorem handleEvent_sibling_directory_registers :
    sampleWatcher.resourcesDir = str "resources" ∧ sampleWatcher.toolsDir = str "tools" ∧
    GetResourceCount sampleWatcher.registry = 0 ∧
    HasPrefix (str "resources2/x.md") (str "resources") = true ∧
    GetResource (handleEvent sampleHost sampleWatcher
        { Name := str "resources2/x.md", Op := Op.Create }).registry (str "x") =
      some { Name := str "x", FilePath := str "resources2/x.md", Type_ := .FileResource,
             MimeType := str "text/markdown" } ∧
    GetResourceCount (handleEvent sampleHost sampleWatcher
      { Name := str "resources2/x.md", Op := Op.Create }).registry = 1 := by
  refine ⟨rfl, rfl, by decide, by decide, by decide, by decide⟩

theorem RegistryCall_run_tools (r : Registry) (step : Host × RegistryCall)
    (hinv : ∀ key t, GetTool r key = some t →
      t.Name = key ∧
        ((t.Type_ = .GoPluginTool ∧ ∃ s, t.Handler = some (.symbol s)) ∨
          (t.Type_ = .PythonTool ∧ t.Handler = some (.path t.FilePath)))) :
    ∀ key t, GetTool (RegistryCall.run r step) key = some t →
      t.Name = key ∧
        ((t.Type_ = .GoPluginTool ∧ ∃ s, t.Handler = some (.symbol s)) ∨
          (t.Type_ = .PythonTool ∧ t.Handler = some (.path t.FilePath))) := by
  obtain ⟨h, call⟩ := step
  intro key t
  cases call with
  | registerResource name filePath =>
    intro hget
    exact hinv key t (by simpa [RegistryCall.run, RegisterResource, GetTool] using hget)
  | unregisterResource name =>
    intro hget
    refine hinv key t ?_
    simp only [RegistryCall.run, UnregisterResource, GetTool] at hget ⊢
    split_ifs at hget <;> exact hget
  | unregisterTool name =>
    intro hget
    refine hinv key t ?_
    simp only [RegistryCall.run, UnregisterTool, GetTool] at hget ⊢
    split_ifs at hget with hp
    · by_cases hk : key = name
      · subst hk
        rw [Finmap.lookup_erase] at hget
        exact absurd hget (by simp)
      · rwa [Finmap.lookup_erase_ne hk] at hget
    · exact hget
  | registerTool name filePath description =>
    simp only [RegistryCall.run, RegisterTool, loadToolHandler]
    cases htype : determineToolType h filePath with
    | UnknownTool =>
      intro hget
      exact hinv key t (by simpa using hget)
    | PythonTool =>
      simp only [loadPythonScript, GetTool]
      intro hget
      by_cases hk : key = name
      · subst hk
        rw [Finmap.lookup_insert] at hget
        have ht := Option.some.inj hget
        subst ht
        exact ⟨rfl, Or.inr ⟨rfl, rfl⟩⟩
      · rw [Finmap.lookup_insert_of_ne _ hk] at hget
        exact hinv key t hget
    | GoPluginTool =>
      simp only [loadGoPlugin]
      cases hopen : h.pluginOpen filePath with
      | error e =>
        intro hget
        exact hinv key t (by simpa using hget)
      | ok plug =>
        cases hlook : plug.Lookup (str "Execute") with
        | error e =>
          simp only [hlook]
          intro hget
          exact hinv key t (by simpa using hget)
        | ok s =>
          simp only [hlook, GetTool]
          intro hget
          by_cases hk : key = name
          · subst hk
            rw [Finmap.lookup_insert] at hget
            have ht := Option.some.inj hget
            subst ht
            exact ⟨rfl, Or.inl ⟨rfl, s, rfl⟩⟩
          · rw [Finmap.lookup_insert_of_ne _ hk] at hget
            exact hinv key t hget

theorem foldl_run_tools (calls : List (Host × RegistryCall)) (r : Registry)
    (hinv : ∀ key t, GetTool r key = some t →
      t.Name = key ∧
        ((t.Type_ = .GoPluginTool ∧ ∃ s, t.Handler = some (.symbol s)) ∨
          (t.Type_ = .PythonTool ∧ t.Handler = some (.path t.FilePath)))) :
    ∀ key t, GetTool (calls.foldl RegistryCall.run r) key = some t →
      t.Name = key ∧
        ((t.Type_ = .GoPluginTool ∧ ∃ s, t.Handler = some (.symbol s)) ∨
          (t.Type_ = .PythonTool ∧ t.Handler = some (.path t.FilePath))) := by
  induction calls generalizing r with
  | nil => exact hinv
  | cons step rest ih => exact ih _ (RegistryCall_run_tools r step hinv)

/-- C20: in every registry reached from `NewRegistry` by register and unregister
calls, each tool entry is stored under its own name, has type go_plugin or python
and never unknown, and has a handle: the symbol the plugin exports for a
go_plugin tool, the file path for a python tool. -/
theorem reachable_tools_constructed (calls : List (Host × RegistryCall)) (key : GoString)
    (t : ToolInfo) (hget : GetTool (runRegistryCalls calls) key = some t) :
    t.Name = key ∧ t.Type_ ≠ .UnknownTool ∧ t.Handler ≠ none ∧
    ((t.Type_ = .GoPluginTool ∧ ∃ s, t.Handler = some (.symbol s)) ∨
      (t.Type_ = .PythonTool ∧ t.Handler = some (.path t.FilePath))) := by
  have hinv := foldl_run_tools calls NewRegistry
    (fun k v hk => by simp [GetTool, NewRegistry] at hk) key t hget
  refine ⟨hinv.1, ?_, ?_, hinv.2⟩
  · rcases hinv.2 with ⟨ht, _⟩ | ⟨ht, _⟩ <;> simp [ht]
  · rcases hinv.2 with ⟨_, s, hs⟩ | ⟨_, hs⟩ <;> simp [hs]

/-- Witness for C20: after a failed registration, a registration of `calc` from
`tools/calc.py` and an unregistration of another name, the entry `calc` is the
python tool with its path as handle. -/
theorem reachable_tools_constructed_witness :
    ∃ t, GetTool (runRegistryCalls
        [(sampleHost, .registerTool (str "readme") (str "tools/readme.txt") (str "d")),
         (sampleHost, .registerTool (str "calc") (str "tools/calc.py") (str "d")),
         (sampleHost, .unregisterTool (str "other"))]) (str "calc") = some t ∧
      t.Name = str "calc" ∧ t.Type_ ≠ .UnknownTool ∧ t.Handler ≠ none ∧
      ((t.Type_ = .GoPluginTool ∧ ∃ s, t.Handler = some (.symbol s)) ∨
        (t.Type_ = .PythonTool ∧ t.Handler = some (.path t.FilePath))) :=
  ⟨{ Name := str "calc", Description := str "d", FilePath := str "tools/calc.py",
     Type_ := .PythonTool, InputSchema := generateInputSchema .PythonTool,
     Handler := some (.path (str "tools/calc.py")) }, rfl,
   reachable_tools_constructed
     [(sampleHost, .registerTool (str "readme") (str "tools/readme.txt") (str "d")),
      (sampleHost, .registerTool (str "calc") (str "tools/calc.py") (str "d")),
      (sampleHost, .unregisterTool (str "other"))] (str "calc") _ rfl⟩

/-! ## Claim on the scan of the tools directory -/

theorem RegisterTool_alone (h : Host) (r : Registry) (name filePath description : GoString) :
    (RegisterTool h r name filePath description).2 =
      (RegisterTool h NewRegistry name filePath description).2 ∧
    ((RegisterTool h r name filePath description).2 ≠ none →
      (RegisterTool h r name filePath description).1 = r) ∧
    ((RegisterTool h r name filePath description).2 = none →
      GetTool (RegisterTool h r name filePath description).1 name =
        GetTool (RegisterTool h NewRegistry name filePath description).1 name ∧
      ∃ t, GetTool (RegisterTool h r name filePath description).1 name = some t ∧
        t.Name = name) ∧
    (∀ key, key ≠ name →
      GetTool (RegisterTool h r name filePath description).1 key = GetTool r key) := by
  unfold RegisterTool
  simp only []
  cases hl : loadToolHandler h
      { Name := name, Description := description, FilePath := filePath,
        Type_ := determineToolType h filePath,
        InputSchema := generateInputSchema (determineToolType h filePath),
        Handler := none } with
  | error e =>
    refine ⟨rfl, fun _ => rfl, fun hn => by simp at hn, fun key _ => rfl⟩
  | ok handler =>
    refine ⟨rfl, fun hn => by simp at hn, fun _ => ⟨?_,
      { Name := name, Description := description, FilePath := filePath,
        Type_ := determineToolType h filePath,
        InputSchema := generateInputSchema (determineToolType h filePath),
        Handler := some handler }, ?_, rfl⟩, ?_⟩
    · simp [GetTool]
    · simp [GetTool]
    · intro key hk
      simp [GetTool, Finmap.lookup_insert_of_ne _ hk]

theorem scanEntry_tool (h : Host) (dir : GoString) (r : Registry) (entry : DirEntry) :
    scanEntry h dir (str "tool") r entry =
      if entry.IsDir then r
      else
        (RegisterTool h r (TrimSuffix entry.Name (Ext entry.Name)) (Join dir entry.Name)
          (str "MCP tool: " ++ TrimSuffix entry.Name (Ext entry.Name))).1 := by
  have hne : str "tool" ≠ str "resource" := by decide
  simp [scanEntry, hne]

theorem scanEntry_tool_success (h : Host) (dir : GoString) (r : Registry) (entry : DirEntry)
    (hfile : entry.IsDir = false) (hok : (registerEntryAlone h dir entry).2 = none) :
    GetTool (scanEntry h dir (str "tool") r entry) (TrimSuffix entry.Name (Ext entry.Name)) =
      GetTool (registerEntryAlone h dir entry).1 (TrimSuffix entry.Name (Ext entry.Name)) ∧
    ∃ t, GetTool (scanEntry h dir (str "tool") r entry)
        (TrimSuffix entry.Name (Ext entry.Name)) = some t ∧
      t.Name = TrimSuffix entry.Name (Ext entry.Name) := by
  have hal := RegisterTool_alone h r (TrimSuffix entry.Name (Ext entry.Name))
    (Join dir entry.Name) (str "MCP tool: " ++ TrimSuffix entry.Name (Ext entry.Name))
  rw [scanEntry_tool, hfile]
  simp only [Bool.false_eq_true, if_false]
  unfold registerEntryAlone at hok ⊢
  exact hal.2.2.1 (hal.1.trans hok)

theorem scanEntry_tool_frame (h : Host) (dir : GoString) (r : Registry) (entry : DirEntry)
    (key : GoString)
    (hother : entry.IsDir = true ∨ TrimSuffix entry.Name (Ext entry.Name) ≠ key ∨
      (registerEntryAlone h dir entry).2 ≠ none) :
    GetTool (scanEntry h dir (str "tool") r entry) key = GetTool r key := by
  have hal := RegisterTool_alone h r (TrimSuffix entry.Name (Ext entry.Name))
    (Join dir entry.Name) (str "MCP tool: " ++ TrimSuffix entry.Name (Ext entry.Name))
  rw [scanEntry_tool]
  rcases hother with hdir | hname | hfail
  · simp [hdir]
  · split_ifs
    · rfl
    · exact hal.2.2.2 key (fun hk => hname hk.symm)
  · split_ifs
    · rfl
    · unfold registerEntryAlone at hfail
      rw [hal.2.1 (by rw [hal.1]; exact hfail)]

theorem scanEntry_tool_named (h : Host) (dir : GoString) (r : Registry) (entry : DirEntry)
    (key : GoString) (hnamed : ∃ t, GetTool r key = some t ∧ t.Name = key) :
    ∃ t, GetTool (scanEntry h dir (str "tool") r entry) key = some t ∧ t.Name = key := by
  by_cases hother : entry.IsDir = true ∨ TrimSuffix entry.Name (Ext entry.Name) ≠ key ∨
      (registerEntryAlone h dir entry).2 ≠ none
  · rw [scanEntry_tool_frame h dir r entry key hother]
    exact hnamed
  · simp only [not_or, Bool.not_eq_true, not_not] at hother
    obtain ⟨hfile, hname, hok⟩ := hother
    have hs := (scanEntry_tool_success h dir r entry hfile hok).2
    rw [hname] at hs
    exact hs

theorem foldl_scanEntry_tool_named (h : Host) (dir : GoString) (entries : List DirEntry)
    (r : Registry) (key : GoString) (hnamed : ∃ t, GetTool r key = some t ∧ t.Name = key) :
    ∃ t, GetTool (entries.foldl (scanEntry h dir (str "tool")) r) key = some t ∧
      t.Name = key := by
  induction entries generalizing r with
  | nil => exact hnamed
  | cons e rest ih => exact ih _ (scanEntry_tool_named h dir r e key hnamed)

theorem foldl_scanEntry_tool_frame (h : Host) (dir : GoString) (entries : List DirEntry)
    (r : Registry) (key : GoString)
    (hother : ∀ e ∈ entries, e.IsDir = false → TrimSuffix e.Name (Ext e.Name) = key →
      (registerEntryAlone h dir e).2 ≠ none) :
    GetTool (entries.foldl (scanEntry h dir (str "tool")) r) key = GetTool r key := by
  induction entries generalizing r with
  | nil => rfl
  | cons e rest ih =>
    rw [List.foldl_cons, ih _ (fun e2 he2 => hother e2 (List.mem_cons_of_mem _ he2))]
    apply scanEntry_tool_frame
    have he := hother e (List.mem_cons_self _ _)
    by_cases hdir : e.IsDir = true
    · exact Or.inl hdir
    · by_cases hname : TrimSuffix e.Name (Ext e.Name) = key
      · exact Or.inr (Or.inr (he (by simpa using hdir) hname))
      · exact Or.inr (Or.inl hname)

theorem foldl_scanEntry_tool_present (h : Host) (dir : GoString) (entries : List DirEntry)
    (r : Registry) (entry : DirEntry) (hmem : entry ∈ entries) (hfile : entry.IsDir = false)
    (hok : (registerEntryAlone h dir entry).2 = none) :
    ∃ t, GetTool (entries.foldl (scanEntry h dir (str "tool")) r)
        (TrimSuffix entry.Name (Ext entry.Name)) = some t ∧
      t.Name = TrimSuffix entry.Name (Ext entry.Name) := by
  induction entries generalizing r with
  | nil => exact absurd hmem (List.not_mem_nil _)
  | cons e rest ih =>
    rw [List.foldl_cons]
    rcases List.mem_cons.mp hmem with heq | hrest
    · subst heq
      exact foldl_scanEntry_tool_named h dir rest _ _
        (scanEntry_tool_success h dir r entry hfile hok).2
    · exact ih _ hrest

/-- C21: failures of single registrations do not leave the scan of the tools
directory.  Once `os.ReadDir` has returned the listing, `scanDirectory` returns
no error whatever the registrations return; every file of the listing whose
registration succeeds on its own, such as every file classified python, has its
name registered afterwards; and it is registered with the descriptor built for
that very file when no later file of the same name registers successfully,
whatever failing entries and directories come before or after it. -/
theorem scanDirectory_isolates_failures (h : Host) (fs : WatchHost) (r : Registry)
    (dir : GoString) (entries : List DirEntry) (hread : fs.ReadDir dir = .ok entries) :
    (scanDirectory h fs r dir (str "tool")).2 = none ∧
    (∀ e ∈ entries, e.IsDir = false → (registerEntryAlone h dir e).2 = none →
      ∃ t, GetTool (scanDirectory h fs r dir (str "tool")).1
          (TrimSuffix e.Name (Ext e.Name)) = some t ∧
        t.Name = TrimSuffix e.Name (Ext e.Name)) ∧
    (∀ pre e post, entries = pre ++ e :: post → e.IsDir = false →
      (registerEntryAlone h dir e).2 = none →
      (∀ e2 ∈ post, e2.IsDir = false →
        TrimSuffix e2.Name (Ext e2.Name) = TrimSuffix e.Name (Ext e.Name) →
        (registerEntryAlone h dir e2).2 ≠ none) →
      GetTool (scanDirectory h fs r dir (str "tool")).1 (TrimSuffix e.Name (Ext e.Name)) =
        GetTool (registerEntryAlone h dir e).1 (TrimSuffix e.Name (Ext e.Name))) ∧
    (∀ e : DirEntry, lowerExt h (Join dir e.Name) = str ".py" →
      (registerEntryAlone h dir e).2 = none ∧
      GetTool (registerEntryAlone h dir e).1 (TrimSuffix e.Name (Ext e.Name)) =
        some { Name := TrimSuffix e.Name (Ext e.Name),
               Description := str "MCP tool: " ++ TrimSuffix e.Name (Ext e.Name),
               FilePath := Join dir e.Name, Type_ := .PythonTool,
               InputSchema := generateInputSchema .PythonTool,
               Handler := some (.path (Join dir e.Name)) }) ∧
    (∀ e : DirEntry, determineToolType h (Join dir e.Name) = .UnknownTool →
      (registerEntryAlone h dir e).2 ≠ none) := by
  have hscan : scanDirectory h fs r dir (str "tool") =
      (entries.foldl (scanEntry h dir (str "tool")) r, none) := by
    simp [scanDirectory, hread]
  rw [hscan]
  refine ⟨rfl, ?_, ?_, ?_, ?_⟩
  · intro e hmem hfile hok
    exact foldl_scanEntry_tool_present h dir entries r e hmem hfile hok
  · intro pre e post hsplit hfile hok hpost
    subst hsplit
    simp only [List.foldl_append, List.foldl_cons]
    rw [foldl_scanEntry_tool_frame h dir post _ _ hpost]
    exact (scanEntry_tool_success h dir _ e hfile hok).1
  · intro e hpy
    unfold registerEntryAlone
    rw [RegisterTool_python h NewRegistry _ _ _ hpy]
    exact ⟨rfl, by simp [GetTool]⟩
  · intro e hunknown
    unfold registerEntryAlone
    simp [RegisterTool, hunknown, loadToolHandler]

/-- Witness for C21: the scan of the directory `tools` of `mixedWatchHost`, where
`calc.py` stands between the failing `readme.txt` and the failing `calc.txt`, a
directory and a plugin that does not open; no error is returned and `calc` is the
python tool built for `tools/calc.py`. -/
theorem scanDirectory_isolates_failures_witness :
    (registerEntryAlone sampleHost (str "tools") { Name := str "readme.txt", IsDir := false }).2
      ≠ none ∧
    (registerEntryAlone sampleHost (str "tools") { Name := str "zip.so", IsDir := false }).2
      ≠ none ∧
    (scanDirectory sampleHost mixedWatchHost NewRegistry (str "tools") (str "tool")).2 = none ∧
    GetTool (scanDirectory sampleHost mixedWatchHost NewRegistry (str "tools") (str "tool")).1
        (TrimSuffix (str "calc.py") (Ext (str "calc.py"))) =
      GetTool (registerEntryAlone sampleHost (str "tools")
        { Name := str "calc.py", IsDir := false }).1
        (TrimSuffix (str "calc.py") (Ext (str "calc.py"))) ∧
    GetTool (registerEntryAlone sampleHost (str "tools")
        { Name := str "calc.py", IsDir := false }).1 (str "calc") =
      some { Name := str "calc", Description := str "MCP tool: calc",
             FilePath := str "tools/calc.py", Type_ := .PythonTool,
             InputSchema := generateInputSchema .PythonTool,
             Handler := some (.path (str "tools/calc.py")) } :=
  ⟨by decide, by decide,
   (scanDirectory_isolates_failures sampleHost mixedWatchHost NewRegistry (str "tools") _
      rfl).1,
   (scanDirectory_isolates_failures sampleHost mixedWatchHost NewRegistry (str "tools") _
      rfl).2.2.1 [{ Name := str "readme.txt", IsDir := false }]
      { Name := str "calc.py", IsDir := false }
      [{ Name := str "calc.txt", IsDir := false }, { Name := str "lib.py", IsDir := true },
       { Name := str "zip.so", IsDir := false }]
      rfl rfl (by decide) (by decide),
   rfl⟩

/-- C13 fails on the code for the default directories: with the resources
directory `./resources` and the tools directory `./tools`, the path the program
itself builds for `notes.md` in the resources directory is `resources/notes.md`
(`filepath.Join` in `scanDirectory`, which registers `notes` under that path).
That path does not start with the string `./resources`, so `handleEvent` drops a
create or write event for it: the watcher is unchanged and `GetResource` of
`notes` is absent, although the file is not hidden and lies in the resources
directory. -/
theorem handleEvent_default_directory_drops_event :
    defaultWatcher.resourcesDir = str "./resources" ∧
    defaultWatcher.toolsDir = str "./tools" ∧
    Join defaultWatcher.resourcesDir (str "notes.md") = str "resources/notes.md" ∧
    GetResource (scanDirectory sampleHost defaultWatchHost NewRegistry
        defaultWatcher.resourcesDir (str "resource")).1 (str "notes") =
      some { Name := str "notes", FilePath := str "resources/notes.md",
             Type_ := .FileResource, MimeType := str "text/markdown" } ∧
    HasPrefix (Base (str "resources/notes.md")) (str ".") = false ∧
    TrimSuffix (Base (str "resources/notes.md")) (Ext (str "resources/notes.md")) =
      str "notes" ∧
    HasPrefix (str "resources/notes.md") defaultWatcher.resourcesDir = false ∧
    handleEvent sampleHost defaultWatcher { Name := str "resources/notes.md", Op := Op.Create } =
      defaultWatcher ∧
    handleEvent sampleHost defaultWatcher { Name := str "resources/notes.md", Op := Op.Write } =
      defaultWatcher ∧
    GetResource (handleEvent sampleHost defaultWatcher
      { Name := str "resources/notes.md", Op := Op.Create }).registry (str "notes") = none ∧
    GetResource (handleEvent sampleHost defaultWatcher
      { Name := str "resources/notes.md", Op := Op.Write }).registry (str "notes") = none := by
  have hc : handleEvent sampleHost defaultWatcher
      { Name := str "resources/notes.md", Op := Op.Create } = defaultWatcher :=
    handleEvent_outside _ _ _ (by decide) (by decide)
  have hw : handleEvent sampleHost defaultWatcher
      { Name := str "resources/notes.md", Op := Op.Write } = defaultWatcher :=
    handleEvent_outside _ _ _ (by decide) (by decide)
  refine ⟨rfl, rfl, by decide, by decide, by decide, by decide, by decide, hc, hw, ?_, ?_⟩
  · rw [hc]; rfl
  · rw [hw]; rfl

/-- C14 as stated fails on two inputs.  On `scannedWatcher`, whose registry
holds `.notes` of `resources/.notes.md`, a remove or a rename event for that path,
which lies in the resources directory, changes nothing and `.notes` stays among
the resources.  On `overlapWatcher`, with the directories `data` and `data-tools`,
a remove or a rename event for `data-tools/calc.py`, which lies in the tools
directory, leaves `calc` among the tools. -/
theorem handleEvent_remove_leaves_name_registered :
    (TrimSuffix (Base (str "resources/.notes.md")) (Ext (str "resources/.notes.md")) =
        str ".notes" ∧
      HasPrefix (str "resources/.notes.md") scannedWatcher.resourcesDir = true ∧
      GetResource (handleEvent sampleHost scannedWatcher
          { Name := str "resources/.notes.md", Op := Op.Remove }).registry (str ".notes") =
        some { Name := str ".notes", FilePath := str "resources/.notes.md",
               Type_ := .FileResource, MimeType := str "text/markdown" } ∧
      GetResource (handleEvent sampleHost scannedWatcher
          { Name := str "resources/.notes.md", Op := Op.Rename }).registry (str ".notes") =
        some { Name := str ".notes", FilePath := str "resources/.notes.md",
               Type_ := .FileResource, MimeType := str "text/markdown" }) ∧
    (TrimSuffix (Base (str "data-tools/calc.py")) (Ext (str "data-tools/calc.py")) =
        str "calc" ∧
      HasPrefix (Base (str "data-tools/calc.py")) (str ".") = false ∧
      HasPrefix (str "data-tools/calc.py") overlapWatcher.toolsDir = true ∧
      GetTool (handleEvent sampleHost overlapWatcher
          { Name := str "data-tools/calc.py", Op := Op.Remove }).registry (str "calc") =
        some { Name := str "calc", Description := str "MCP tool: calc",
               FilePath := str "data-tools/calc.py", Type_ := .PythonTool,
               InputSchema := generateInputSchema .PythonTool,
               Handler := some (.path (str "data-tools/calc.py")) } ∧
      GetTool (handleEvent sampleHost overlapWatcher
          { Name := str "data-tools/calc.py", Op := Op.Rename }).registry (str "calc") =
        some { Name := str "calc", Description := str "MCP tool: calc",
               FilePath := str "data-tools/calc.py", Type_ := .PythonTool,
               InputSchema := generateInputSchema .PythonTool,
               Handler := some (.path (str "data-tools/calc.py")) }) := by
  refine ⟨⟨by decide, by decide, ?_, ?_⟩, ⟨by decide, by decide, by decide, rfl, rfl⟩⟩
  · rw [handleEvent_hidden _ _ _ (by decide)]
    decide
  · rw [handleEvent_hidden _ _ _ (by decide)]
    decide

end GinMCP
